import Mathlib

/-! go-keeper: the access gate in front of the transaction routes

A shallow embedding of `api.go`, `models.go` and the `Storage` interface of
`storage.go`.  Handlers are state-passing functions over the response writer,
the request (whose body is a single-read stream) and an arbitrary world state
threaded through the storage calls.

The packages the program imports (`encoding/json`, `golang-jwt/jwt/v5`,
`bcrypt`, base64url) are outside the repository.  Their control flow is
written out below; the primitives they bottom out in (the JSON grammar, the
base64url alphabet, the hash functions) are the fields of `Lib`.
-/

namespace GoKeeper

/-! ## Values shared with the imported packages -/

/-- One step of UTF-8 decoding over a Go string: a decoded rune, or a single
byte at which decoding fails. -/
inductive GoRune where
  | rune (c : Char)
  | invalid (byte : Nat)
deriving DecidableEq, Repr

/-- Go string: a byte sequence, not necessarily valid UTF-8, cut the way
`utf8.DecodeRuneInString` walks it.  A Lean `String` stands for the Go
strings that are valid UTF-8. -/
abbrev GoString := List GoRune

/-- The Go string with the bytes of a text. -/
def GoString.ofString (s : String) : GoString := s.data.map GoRune.rune

def GoRune.isRune : GoRune → Bool
  | .rune _ => true
  | .invalid _ => false

/-- Go `utf8.ValidString`. -/
def GoString.isValid (g : GoString) : Bool := g.all GoRune.isRune

/-- What `encoding/json` makes of a rune when it writes a string: a byte at
which decoding fails becomes U+FFFD. -/
def GoRune.coerce : GoRune → Char
  | .rune c => c
  | .invalid _ => Char.ofNat 0xFFFD

/-- The text `encoding/json` writes for a Go string and a decoder reads
back: the string itself when it is valid UTF-8, otherwise the string with
each invalid byte replaced by U+FFFD. -/
def GoString.toValidUTF8 (g : GoString) : String := String.mk (g.map GoRune.coerce)

/-- Go value held in an `interface{}`: what `encoding/json` decodes a
document to, and what a program puts into a `MapClaims`.  A number literal
without fraction or exponent is `num`; any other number literal is `frac`,
by value.  Object members are kept in document order.  A string is `str`
when it is valid UTF-8 and `raw` otherwise; no decoder returns `raw`. -/
inductive JValue where
  | null
  | bool (b : Bool)
  | num (n : Int)
  | frac (q : ℚ)
  | str (s : String)
  | raw (g : GoString)
  | arr (xs : List JValue)
  | obj (kvs : List (String × JValue))

/-- A Go string as an interface value. -/
def GoString.toJValue (g : GoString) : JValue :=
  if g.isValid then .str g.toValidUTF8 else .raw g

/-- Decoded JSON object, or a Go `map[string]interface{}` listed by key. -/
abbrev JObject := List (String × JValue)

/-- Octet strings (MAC tags), written in lowercase hexadecimal. -/
abbrev Octets := String

/-- Map index `m[key]`: when a document repeats a key the last member wins. -/
def JObject.get? (m : JObject) (key : String) : Option JValue :=
  ((m.filter (fun kv => kv.1 == key)).getLast?).map (fun kv => kv.2)

/-- Go comparison `s == v` of a string with an interface value: true exactly
when the dynamic type of `v` is string and the values agree; a missing map
entry is the nil interface. -/
def ifaceEqString (v : Option JValue) (s : String) : Bool :=
  match v with
  | some (.str t) => t == s
  | _ => false

/-- Primitives of the imported packages. -/
structure Lib where
  /-- Go `json.Unmarshal`: the whole input is one JSON value. -/
  jsonParse : String → Option JValue
  /-- Go `json.Decoder.Decode`: the first JSON value of the stream. -/
  jsonDecode : String → Option JValue
  /-- Go `json.Marshal` of a value whose maps are listed in sorted key order. -/
  jsonMarshal : JValue → String
  /-- Go `base64.RawURLEncoding` on the UTF-8 bytes of a text. -/
  encodeSegment : String → String
  decodeSegment : String → Option String
  /-- Go `base64.RawURLEncoding` on raw octets. -/
  encodeOctets : Octets → String
  decodeOctets : String → Option Octets
  /-- Go `hmac.New(hash, key)` applied to a message, by `alg` name. -/
  hmac : String → String → String → Octets
  /-- Go `bcrypt.CompareHashAndPassword hash password == nil`. -/
  bcryptCompare : String → String → Bool
  /-- The `float64` nearest to a JSON number, which is what a number becomes
  when it is decoded into an interface value. -/
  float64 : ℚ → ℚ
  /-- The empty input is not a JSON value. -/
  jsonParse_empty : jsonParse "" = none

/-- Process environment: `os.Getenv` returns the empty string when unset. -/
abbrev Environ := List (String × String)

def Getenv (env : Environ) (key : String) : String :=
  (env.lookup key).getD ""

/-- What a request handler reads from its surroundings: the imported
packages, the process environment and the wall clock in whole seconds. -/
structure Sys where
  lib : Lib
  environ : Environ
  now : Int

/-! ## models.go -/

structure Transaction where
  ID : Int
  Username : String
  Name : String
  Value : Int
  Currency : String
  Created_at : Int
  Category : String
deriving DecidableEq, Repr

structure User where
  Name : GoString
  PasswordEncrypted : String
deriving DecidableEq, Repr

structure CreateTransactionRequest where
  Name : String := ""
  Username : String := ""
  Value : Int := 0
  Currency : String := ""
deriving DecidableEq, Repr

structure CreateUserRequest where
  Name : String := ""
  Password : String := ""
deriving DecidableEq, Repr

structure CreateUserResponse where
  Name : GoString
  Token : String
deriving DecidableEq, Repr

def User.validPassword (L : Lib) (u : User) (password : String) : Bool :=
  L.bcryptCompare u.PasswordEncrypted password

/-! ## encoding/json into the request structs -/

/-- Simple case folding of one rune, restricted to the orbits that meet the
ASCII letters: upper case, the long s and the Kelvin sign. -/
def foldRune (c : Char) : Char :=
  if c = Char.ofNat 0x17F then 's'
  else if c = Char.ofNat 0x212A then 'k'
  else c.toLower

def foldName (s : String) : List Char := s.data.map foldRune

/-- Struct field selected by an object key: an exact match on the tag is
preferred, a match under case folding is accepted. -/
def findField (tags : List String) (key : String) : Option String :=
  match tags.find? (fun t => t == key) with
  | some t => some t
  | none => tags.find? (fun t => foldName t == foldName key)

/-- Decode a JSON value into a Go `string` field: `null` leaves it alone. -/
def decodeString (tag : String) (old : String) (v : JValue) : Except String String :=
  match v with
  | .str s => .ok s
  | .null => .ok old
  | _ => .error ("json: cannot unmarshal into Go struct field ." ++ tag ++ " of type string")

/-- Decode a JSON value into a Go `int` field (64 bits). -/
def decodeInt (tag : String) (old : Int) (v : JValue) : Except String Int :=
  match v with
  | .num n =>
    if -(2 : Int) ^ 63 ≤ n ∧ n < (2 : Int) ^ 63 then .ok n
    else .error ("json: cannot unmarshal number into Go struct field ." ++ tag ++ " of type int")
  | .null => .ok old
  | _ => .error ("json: cannot unmarshal into Go struct field ." ++ tag ++ " of type int")

def setFieldCTR (req : CreateTransactionRequest) (kv : String × JValue) :
    Except String CreateTransactionRequest :=
  match findField ["name", "username", "value", "currency"] kv.1 with
  | some "name" => do
    let s ← decodeString "name" req.Name kv.2
    pure { req with Name := s }
  | some "username" => do
    let s ← decodeString "username" req.Username kv.2
    pure { req with Username := s }
  | some "value" => do
    let n ← decodeInt "value" req.Value kv.2
    pure { req with Value := n }
  | some "currency" => do
    let s ← decodeString "currency" req.Currency kv.2
    pure { req with Currency := s }
  | _ => pure req

/-- Decoding of a JSON value into `CreateTransactionRequest`. -/
def decodeCTR (req : CreateTransactionRequest) (v : JValue) :
    Except String CreateTransactionRequest :=
  match v with
  | .obj kvs => kvs.foldlM setFieldCTR req
  | .null => .ok req
  | _ => .error "json: cannot unmarshal into Go value of type main.CreateTransactionRequest"

def setFieldCUR (req : CreateUserRequest) (kv : String × JValue) :
    Except String CreateUserRequest :=
  match findField ["username", "password"] kv.1 with
  | some "username" => do
    let s ← decodeString "username" req.Name kv.2
    pure { req with Name := s }
  | some "password" => do
    let s ← decodeString "password" req.Password kv.2
    pure { req with Password := s }
  | _ => pure req

/-- Decoding of a JSON value into `CreateUserRequest`. -/
def decodeCUR (req : CreateUserRequest) (v : JValue) : Except String CreateUserRequest :=
  match v with
  | .obj kvs => kvs.foldlM setFieldCUR req
  | .null => .ok req
  | _ => .error "json: cannot unmarshal into Go value of type main.CreateUserRequest"

/-- Go `json.Unmarshal(body, &CreateTransactionReq)`. -/
def unmarshalCTR (L : Lib) (body : String) (req : CreateTransactionRequest) :
    Except String CreateTransactionRequest :=
  match L.jsonParse body with
  | none => .error "invalid character or unexpected end of JSON input"
  | some v => decodeCTR req v

/-- Decoding into a `map[string]interface{}`: an object fills the map,
`null` leaves it as it was, anything else is an error. -/
def decodeMap (old : JObject) (v : JValue) : Except String JObject :=
  match v with
  | .obj kvs => .ok (old ++ kvs)
  | .null => .ok old
  | _ => .error "json: cannot unmarshal into Go value of type jwt.MapClaims"

/-! ## golang-jwt/jwt/v5 -/

/-- The signing methods the package registers. -/
inductive SigningMethod where
  | HMAC (alg : String)
  | RSA (alg : String)
  | RSAPSS (alg : String)
  | ECDSA (alg : String)
  | Ed25519
  | None
deriving DecidableEq, Repr

def SigningMethod.Alg : SigningMethod → String
  | .HMAC alg => alg
  | .RSA alg => alg
  | .RSAPSS alg => alg
  | .ECDSA alg => alg
  | .Ed25519 => "EdDSA"
  | .None => "none"

def SigningMethodHS256 : SigningMethod := .HMAC "HS256"

/-- Go `jwt.GetSigningMethod`: lookup in the registry by `alg` name. -/
def GetSigningMethod (alg : String) : Option SigningMethod :=
  if alg ∈ ["HS256", "HS384", "HS512"] then some (.HMAC alg)
  else if alg ∈ ["RS256", "RS384", "RS512"] then some (.RSA alg)
  else if alg ∈ ["PS256", "PS384", "PS512"] then some (.RSAPSS alg)
  else if alg ∈ ["ES256", "ES384", "ES512"] then some (.ECDSA alg)
  else if alg = "EdDSA" then some .Ed25519
  else if alg = "none" then some .None
  else none

/-- Go `Method.Sign(signingString, key)` for a key of type `[]byte`: only the
HMAC family signs with a byte slice. -/
def SigningMethod.Sign (L : Lib) (m : SigningMethod) (signingString key : String) :
    Except String Octets :=
  match m with
  | .HMAC alg => .ok (L.hmac alg key signingString)
  | _ => .error "key is of invalid type"

/-- Go `Method.Verify(signingString, sig, key)` for a key of type `[]byte`. -/
def SigningMethod.Verify (L : Lib) (m : SigningMethod) (signingString : String)
    (sig : Octets) (key : String) : Except String Unit :=
  match m with
  | .HMAC alg =>
    if L.hmac alg key signingString = sig then .ok () else .error "signature is invalid"
  | _ => .error "key is of invalid type"

structure Token where
  Raw : String
  Method : SigningMethod
  Header : JObject
  Claims : JObject
  Signature : Octets
  Valid : Bool

/-- Go `strings.Split` on a one-character separator, on the character list. -/
def splitOnChar (sep : Char) : List Char → List (List Char)
  | [] => [[]]
  | c :: cs =>
    if c = sep then [] :: splitOnChar sep cs
    else
      match splitOnChar sep cs with
      | [] => [[c]]
      | p :: ps => (c :: p) :: ps

def Split (s : String) (sep : Char) : List String :=
  (splitOnChar sep s.data).map String.mk

def orErr {α : Type} (o : Option α) (msg : String) : Except String α :=
  match o with
  | some a => .ok a
  | none => .error msg

/-- Go `Parser.ParseUnverified` with `MapClaims`: split into three segments,
decode header and claims, look the signing method up. -/
def ParseUnverified (L : Lib) (tokenString : String) :
    Except String (Token × String × String × String) :=
  match Split tokenString '.' with
  | [p0, p1, p2] => do
    let headerBytes ← orErr (L.decodeSegment p0) "token is malformed: could not base64 decode header"
    let headerJSON ← orErr (L.jsonParse headerBytes) "token is malformed: could not JSON decode header"
    let header ← decodeMap [] headerJSON
    let claimBytes ← orErr (L.decodeSegment p1) "token is malformed: could not base64 decode claim"
    let claimJSON ← orErr (L.jsonParse claimBytes) "token is malformed: could not JSON decode claim"
    let claims ← decodeMap [] claimJSON
    match header.get? "alg" with
    | some (.str alg) =>
      let method ← orErr (GetSigningMethod alg) "token is unverifiable: signing method (alg) is unavailable"
      pure ({ Raw := tokenString, Method := method, Header := header, Claims := claims,
              Signature := "", Valid := false }, p0, p1, p2)
    | _ => .error "token is unverifiable: signing method (alg) is unspecified"
  | _ => .error "token is malformed: token contains an invalid number of segments"

/-- Two's complement wrap-around of 64-bit signed arithmetic. -/
def wrapInt64 (x : Int) : Int := (x + 2 ^ 63) % 2 ^ 64 - 2 ^ 63

/-- Integral part of a rational, rounded toward zero (`math.Modf`). -/
def truncRat (q : ℚ) : Int := if 0 ≤ q then q.floor else -((-q).floor)

/-- Go conversion `int64(f)` of an integral `float64`.  Out of range the
result is left to the platform; amd64 yields the least `int64` (arm64
saturates, which after the epoch offset below wraps to within a second of
the same instant). -/
def int64OfFloat (x : Int) : Int :=
  if -(2 : Int) ^ 63 ≤ x ∧ x < (2 : Int) ^ 63 then x else -(2 : Int) ^ 63

/-- Seconds between the internal epoch of `time.Time` (year 1) and 1970. -/
def unixToInternal : Int := 62135596800

/-- The reading of the clock in the seconds `time.Time` compares. -/
def internalSeconds (unix : Int) : Int := wrapInt64 (unix + unixToInternal)

/-- Go `newNumericDateFromSeconds(f)`, as the internal second count of the
resulting time: `time.Unix(int64(round), int64(frac*1e9))` truncated to the
second.  The product `frac*1e9` is taken exactly. -/
def newNumericDateFromSeconds (f : ℚ) : Int :=
  let round := truncRat f
  let frac := f - (round : ℚ)
  let sec := int64OfFloat round
  let nsec := int64OfFloat (truncRat (frac * 1000000000))
  let sec1 := if nsec < 0 then wrapInt64 (sec - 1) else sec
  wrapInt64 (sec1 + unixToInternal)

/-- Number held by a decoded JSON value, as a `float64`. -/
def floatValue (L : Lib) (v : JValue) : Option ℚ :=
  match v with
  | .num n => some (L.float64 (n : ℚ))
  | .frac q => some (L.float64 q)
  | _ => none

/-- Go `MapClaims.parseNumericDate`: a missing or zero claim is no date, a
number is a date (in internal seconds), any other type is an error. -/
def parseNumericDate (L : Lib) (m : JObject) (key : String) : Except String (Option Int) :=
  match m.get? key with
  | none => .ok none
  | some v =>
    match floatValue L v with
    | some f => if f = 0 then .ok none else .ok (some (newNumericDateFromSeconds f))
    | none => .error (key ++ " is invalid")

/-- Go `Validator.verifyExpiresAt`, the claim not being required:
`now.Before(exp)`. -/
def verifyExpiresAt (L : Lib) (now : Int) (claims : JObject) : Option String :=
  match parseNumericDate L claims "exp" with
  | .error e => some e
  | .ok none => none
  | .ok (some exp) => if internalSeconds now < exp then none else some "token is expired"

/-- Go `Validator.verifyNotBefore`, the claim not being required:
`!now.Before(nbf)`. -/
def verifyNotBefore (L : Lib) (now : Int) (claims : JObject) : Option String :=
  match parseNumericDate L claims "nbf" with
  | .error e => some e
  | .ok none => none
  | .ok (some nbf) => if internalSeconds now < nbf then some "token is not valid yet" else none

/-- Go `Validator.Validate` of a default validator (no leeway, no expected
audience, issuer or subject, `iat` not verified) on `MapClaims`. -/
def Validate (L : Lib) (now : Int) (claims : JObject) : Except String Unit :=
  let errs := (verifyExpiresAt L now claims).toList ++ (verifyNotBefore L now claims).toList
  match errs with
  | [] => .ok ()
  | e :: _ => .error ("token has invalid claims: " ++ e)

/-- Go `jwt.Parse(tokenString, keyFunc)`. -/
def Parse (L : Lib) (now : Int) (tokenString : String)
    (keyFunc : Token → Except String String) : Except String Token := do
  let (token, p0, p1, p2) ← ParseUnverified L tokenString
  let sig ← orErr (L.decodeOctets p2) "token is malformed: could not base64 decode signature"
  let text := p0 ++ "." ++ p1
  let key ← keyFunc token
  token.Method.Verify L text sig key
  Validate L now token.Claims
  pure { token with Signature := sig, Valid := true }

/-- Go `jwt.NewWithClaims(method, claims)`. -/
def NewWithClaims (method : SigningMethod) (claims : JObject) : Token :=
  { Raw := "", Method := method,
    Header := [("alg", .str method.Alg), ("typ", .str "JWT")],
    Claims := claims, Signature := "", Valid := false }

/-- Go `Token.SigningString`. -/
def Token.SigningString (L : Lib) (t : Token) : String :=
  L.encodeSegment (L.jsonMarshal (.obj t.Header)) ++ "." ++
    L.encodeSegment (L.jsonMarshal (.obj t.Claims))

/-- Go `Token.SignedString(key)`. -/
def Token.SignedString (L : Lib) (t : Token) (key : String) : Except String String := do
  let sstr := t.SigningString L
  let sig ← t.Method.Sign L sstr key
  pure (sstr ++ "." ++ L.encodeOctets sig)

/-- Value of a non-empty run of decimal digits. -/
def parseDigits : List Char → Option Nat
  | [] => none
  | cs => cs.foldlM (fun acc c => if c.isDigit then some (acc * 10 + (c.toNat - 48)) else none) 0

/-- Go `strconv.Atoi`: optional sign, decimal digits, 64-bit range. -/
def Atoi (s : String) : Except String Int :=
  let (neg, ds) : Bool × List Char :=
    match s.data with
    | '-' :: t => (true, t)
    | '+' :: t => (false, t)
    | t => (false, t)
  match parseDigits ds with
  | none => .error "strconv.Atoi: invalid syntax"
  | some n =>
    let v : Int := if neg then -(n : Int) else (n : Int)
    if -(2 : Int) ^ 63 ≤ v ∧ v < (2 : Int) ^ 63 then .ok v
    else .error "strconv.Atoi: value out of range"

/-! ## net/http and httprouter -/

/-- Request body: a stream that is read once.  `unread` is what the reader
still delivers, `failure` an error other than EOF that ends the stream. -/
structure Body where
  unread : String
  failure : Option String := none
deriving DecidableEq, Repr

/-- Go `io.ReadAll`: everything up to EOF or the first error; the stream is
left drained. -/
def ReadAll (b : Body) : String × Option String × Body :=
  (b.unread, b.failure, { b with unread := "" })

/-- Go `io.NopCloser(bytes.NewReader(data))`. -/
def NewReader (data : String) : Body := { unread := data, failure := none }

structure Cookie where
  Name : String
  Value : String
  Expires : Option Int := none
deriving DecidableEq, Repr

structure Request where
  /-- Cookies of the `Cookie` header, in order. -/
  Cookies : List Cookie
  Body : Body
deriving DecidableEq, Repr

/-- Go `r.Cookie(name)`: the first cookie of that name, or `ErrNoCookie`. -/
def Request.Cookie (r : Request) (name : String) : Except String Cookie :=
  match r.Cookies.find? (fun c => c.Name == name) with
  | some c => .ok c
  | none => .error "http: named cookie not present"

/-- Go `httprouter.Params`. -/
abbrev Params := List (String × String)

/-- Go `ps.ByName(name)`: the first matching parameter, else the empty string. -/
def ByName (ps : Params) (name : String) : String :=
  match ps.find? (fun p => p.1 == name) with
  | some p => p.2
  | none => ""

structure APIError where
  Error : String
deriving DecidableEq, Repr

/-- Values handed to `WriteJSON`; the response body is the sequence of
values encoded onto it. -/
inductive Payload where
  | apiError (e : APIError)
  | transaction (t : Transaction)
  | transactions (ts : List Transaction)
  | userResponse (u : CreateUserResponse)
deriving DecidableEq, Repr

/-- Go `http.ResponseWriter`: the header map in insertion order, the status
code of the first `WriteHeader`, the cookies set and the body written. -/
structure ResponseWriter where
  header : List (String × String) := []
  status : Option Nat := none
  cookies : List Cookie := []
  body : List Payload := []
deriving DecidableEq, Repr

def StatusOK : Nat := 200
def StatusBadRequest : Nat := 400
def StatusForbidden : Nat := 403

/-- Bytes allowed in a header field name (RFC 7230 token characters). -/
def validHeaderFieldByte (c : Char) : Bool :=
  c.isAlphanum || [33, 35, 36, 37, 38, 39, 42, 43, 45, 46, 94, 95, 96, 124, 126].contains c.toNat

/-- Letter case of a canonical header key: upper case at the start and
after a hyphen, lower case elsewhere. -/
def canonicalCase (upper : Bool) : List Char → List Char
  | [] => []
  | c :: cs => (if upper then c.toUpper else c.toLower) :: canonicalCase (c == '-') cs

/-- Go `textproto.CanonicalMIMEHeaderKey`: a key that is not a valid field
name is left as it is. -/
def CanonicalMIMEHeaderKey (key : String) : String :=
  if key.data.all validHeaderFieldByte then String.mk (canonicalCase true key.data) else key

/-- Go `Header.Add(key, value)`: the key is stored in canonical form. -/
def HeaderAdd (h : List (String × String)) (key value : String) : List (String × String) :=
  h ++ [(CanonicalMIMEHeaderKey key, value)]

/-- Go `w.WriteHeader(status)`: only the first call sets the status. -/
def WriteHeader (w : ResponseWriter) (status : Nat) : ResponseWriter :=
  match w.status with
  | none => { w with status := some status }
  | some _ => w

/-- Go `http.SetCookie(w, cookie)`. -/
def SetCookie (w : ResponseWriter) (cookie : Cookie) : ResponseWriter :=
  { w with cookies := w.cookies ++ [cookie] }

/-- State after a handler ran: the writer, the request (its body may have
been read or replaced) and the world the storage lives in. -/
structure Exec (σ : Type) where
  w : ResponseWriter
  r : Request
  world : σ

/-- Go `httprouter.Handle`. -/
abbrev Handle (σ : Type) := ResponseWriter → Request → Params → σ → Exec σ

/-- Go `APIFunc`: a handler that may return an error. -/
abbrev APIFunc (σ : Type) := ResponseWriter → Request → Params → σ → Option String × Exec σ

/-! ## storage.go: the Storage interface -/

/-- The methods of `Storage` the modelled handlers call, each a transition
of the world. -/
structure Storage (σ : Type) where
  GetTransactionID : Int → σ → Except String Transaction × σ
  GetTransactions : String → σ → Except String (List Transaction) × σ
  GetTransactionsByCategory : String → String → σ → Except String (List Transaction) × σ
  GetUser : String → σ → Except String User × σ

/-! ## api.go -/

structure APIServer (σ : Type) where
  Port : String
  Storage : Storage σ

/-- Go `WriteJSON`.  Encoding one of the payloads cannot fail and a broken
connection is not modelled, so the error it returns is always nil. -/
def WriteJSON (w : ResponseWriter) (status : Nat) (v : Payload) : ResponseWriter :=
  let w1 := { w with header := HeaderAdd w.header "Content-type" "application/json" }
  let w2 := WriteHeader w1 status
  { w2 with body := w2.body ++ [v] }

def makeHTTPHandler {σ : Type} (f : APIFunc σ) : Handle σ :=
  fun w r ps world =>
    match f w r ps world with
    | (some err, x) => { x with w := WriteJSON x.w StatusBadRequest (.apiError { Error := err }) }
    | (none, x) => x

def permissionDenied (w : ResponseWriter) : ResponseWriter :=
  WriteJSON w StatusForbidden (.apiError { Error := "permission denied" })

def getUsername (L : Lib) (r : Request) : Except String String × Request :=
  let CreateTransactionReq : CreateTransactionRequest := {}
  match ReadAll r.Body with
  | (_, some err, rest) => (.error err, { r with Body := rest })
  | (body, none, rest) =>
    match unmarshalCTR L body CreateTransactionReq with
    | .error err => (.error err, { r with Body := rest })
    | .ok req => (.ok req.Username, { r with Body := NewReader body })

/-- Go `%v` of the map entry `token.Header["alg"]`.  The key function runs
only after the method was looked up by a string `alg`, so only a string is
ever formatted; other values are shown by their kind. -/
def formatAlg (v : Option JValue) : String :=
  match v with
  | some (.str s) => s
  | none => "<nil>"
  | some _ => "<value>"

def validateJWT (S : Sys) (tokenString : String) : Except String Token :=
  let secret := Getenv S.environ "JWT_SECRET"
  Parse S.lib S.now tokenString (fun token =>
    match token.Method with
    | .HMAC _ => .ok secret
    | _ => .error ("Unexpected signing method: " ++ formatAlg (token.Header.get? "alg")))

def generateJWT (S : Sys) (user : User) : Except String String :=
  let claims : JObject := [("expiresAt", .num 15000), ("username", user.Name.toJValue)]
  let secret := Getenv S.environ "JWT_SECRET"
  let token := NewWithClaims SigningMethodHS256 claims
  token.SignedString S.lib secret

def withJWTAuth {σ : Type} (S : Sys) (handlerFunc : Handle σ) (_storage : Storage σ) : Handle σ :=
  fun w r ps world =>
    match r.Cookie "jwtToken" with
    | .error _ => { w := permissionDenied w, r := r, world := world }
    | .ok cookie =>
      let tokenStr := cookie.Value
      match validateJWT S tokenStr with
      | .error _ => { w := permissionDenied w, r := r, world := world }
      | .ok token =>
        if !token.Valid then { w := permissionDenied w, r := r, world := world }
        else
          match getUsername S.lib r with
          | (.error _, r1) => { w := permissionDenied w, r := r1, world := world }
          | (.ok username, r1) =>
            let claims := token.Claims
            if !ifaceEqString (claims.get? "username") username then
              { w := permissionDenied w, r := r1, world := world }
            else handlerFunc w r1 ps world

def handleGetTransactionID {σ : Type} (s : APIServer σ) : APIFunc σ :=
  fun w r ps world =>
    match Atoi (ByName ps "id") with
    | .error err => (some err, { w := w, r := r, world := world })
    | .ok id =>
      match s.Storage.GetTransactionID id world with
      | (.error err, world1) => (some err, { w := w, r := r, world := world1 })
      | (.ok transaction, world1) =>
        (none, { w := WriteJSON w StatusOK (.transaction transaction), r := r, world := world1 })

def handleGetTransaction {σ : Type} (S : Sys) (s : APIServer σ) : APIFunc σ :=
  fun w r _ world =>
    match getUsername S.lib r with
    | (.error err, r1) => (some err, { w := w, r := r1, world := world })
    | (.ok username, r1) =>
      match s.Storage.GetTransactions username world with
      | (.error err, world1) => (some err, { w := w, r := r1, world := world1 })
      | (.ok transactions, world1) =>
        (none, { w := WriteJSON w StatusOK (.transactions transactions), r := r1, world := world1 })

def handleGetTransactionCategory {σ : Type} (S : Sys) (s : APIServer σ) : APIFunc σ :=
  fun w r ps world =>
    match getUsername S.lib r with
    | (.error err, r1) => (some err, { w := w, r := r1, world := world })
    | (.ok username, r1) =>
      let category := ByName ps "category"
      match s.Storage.GetTransactionsByCategory username category world with
      | (.error err, world1) => (some err, { w := w, r := r1, world := world1 })
      | (.ok transactions, world1) =>
        (none, { w := WriteJSON w StatusOK (.transactions transactions), r := r1, world := world1 })

/-- Go `json.NewDecoder(r.Body).Decode(&userReq)`: the first JSON value of the
stream; the stream is left drained. -/
def decodeBodyCUR (L : Lib) (b : Body) (req : CreateUserRequest) :
    Except String CreateUserRequest × Body :=
  match L.jsonDecode b.unread with
  | some v => (decodeCUR req v, { b with unread := "" })
  | none => (.error (b.failure.getD "invalid character or unexpected EOF"), { b with unread := "" })

def handleLogin {σ : Type} (S : Sys) (s : APIServer σ) (w : ResponseWriter) (r : Request)
    (world : σ) : Option String × Exec σ :=
  let userReq : CreateUserRequest := {}
  match decodeBodyCUR S.lib r.Body userReq with
  | (.error err, rest) => (some err, { w := w, r := { r with Body := rest }, world := world })
  | (.ok userReq, rest) =>
    let r1 := { r with Body := rest }
    match s.Storage.GetUser userReq.Name world with
    | (.error err, world1) => (some err, { w := w, r := r1, world := world1 })
    | (.ok user, world1) =>
      if !user.validPassword S.lib user.PasswordEncrypted then
        (some "not authenticated", { w := w, r := r1, world := world1 })
      else
        match generateJWT S user with
        | .error err => (some err, { w := w, r := r1, world := world1 })
        | .ok token =>
          let userResponse : CreateUserResponse := { Name := user.Name, Token := token }
          let cookie : Cookie :=
            { Name := "jwtToken", Value := token, Expires := some (S.now + 24 * 3600) }
          let w1 := SetCookie w cookie
          (none, { w := WriteJSON w1 StatusOK (.userResponse userResponse), r := r1,
                   world := world1 })

/-- The three gated routes registered by `APIServer.Run`. -/
inductive GatedRoute where
  | transaction
  | transactionCategory
  | transactionCategoryID
deriving DecidableEq, Repr

/-- The handler `APIServer.Run` registers for a gated route. -/
def APIServer.route {σ : Type} (S : Sys) (s : APIServer σ) : GatedRoute → Handle σ
  | .transaction => withJWTAuth S (makeHTTPHandler (handleGetTransaction S s)) s.Storage
  | .transactionCategory =>
    withJWTAuth S (makeHTTPHandler (handleGetTransactionCategory S s)) s.Storage
  | .transactionCategoryID => withJWTAuth S (makeHTTPHandler (handleGetTransactionID s)) s.Storage

/-! ## A sample system

The primitives of `Lib` tabulated at the documents, segments and keys the
examples use.  Every table entry is the value the real package computes
(RFC 8259, RFC 4648 section 5, RFC 2104 with SHA-256, bcrypt at cost 10).
Outside the tables the functions are stand-ins: the JSON functions are exact
on claim sets whose name needs no escape other than the quote, the backslash
and the replacement of invalid bytes; the segment codec falls back on an
invertible escape of the separator; the MAC falls back on a fixed tag. -/

namespace Sample

def headerHS256Text : String := "\x7b\"alg\":\"HS256\",\"typ\":\"JWT\"\x7d"
def headerNoneText : String := "\x7b\"alg\":\"none\",\"typ\":\"JWT\"\x7d"
def claimsAliceText : String := "\x7b\"expiresAt\":15000,\"username\":\"alice\"\x7d"
def claimsAnonText : String := "\x7b\"expiresAt\":15000,\"username\":\"\"\x7d"
def claimsMalloryText : String := "\x7b\"expiresAt\":15000,\"username\":\"\\ufffd\"\x7d"
def bodyAlice : String := "\x7b\"username\":\"alice\"\x7d"
def bodyBob : String := "\x7b\"username\":\"bob\"\x7d"
def bodyUpper : String := "\x7b\"USERNAME\":\"alice\"\x7d"
def bodyEmptyObject : String := "\x7b\x7d"
def bodyLogin : String := "\x7b\"username\":\"alice\",\"password\":\"secret1\"\x7d"

def headerHS256Seg : String := "eyJhbGciOiJIUzI1NiIsInR5cCI6IkpXVCJ9"
def headerNoneSeg : String := "eyJhbGciOiJub25lIiwidHlwIjoiSldUIn0"
def claimsAliceSeg : String := "eyJleHBpcmVzQXQiOjE1MDAwLCJ1c2VybmFtZSI6ImFsaWNlIn0"
def claimsAnonSeg : String := "eyJleHBpcmVzQXQiOjE1MDAwLCJ1c2VybmFtZSI6IiJ9"
def claimsMallorySeg : String := "eyJleHBpcmVzQXQiOjE1MDAwLCJ1c2VybmFtZSI6Ilx1ZmZmZCJ9"

def secret : String := "keeper-secret"

def sigAliceHex : Octets := "0e20a07c3ef2f1090ba5bead77ff7b94d88937b905af019d1bf47f303853ad49"
def sigAliceSeg : String := "DiCgfD7y8QkLpb6td_97lNiJN7kFrwGdG_R_MDhTrUk"
def sigAliceEmptyKeyHex : Octets :=
  "825262df0892b80a9702294a0dc78fda9a7288ca417aaf1fc80f1ddd23e7010d"
def sigAliceEmptyKeySeg : String := "glJi3wiSuAqXAilKDceP2ppyiMpBeq8fyA8d3SPnAQ0"
def sigAnonHex : Octets := "ce1fad9aca6673d041182f8087c30b98e18d0068d2c7856924a04e4079cdcbb5"
def sigAnonSeg : String := "zh-tmspmc9BBGC-Ah8MLmOGNAGjSx4VpJKBOQHnNy7U"
def sigMalloryHex : Octets := "46865519bb70699f40845c9eacd1a1ccf9ae54282705b5417c26e330a7508aab"
def sigMallorySeg : String := "RoZVGbtwaZ9AhFyerNGhzPmuVCgnBbVBfCbjMKdQiqs"

/-- Token `generateJWT` issues for alice under `secret`. -/
def tokenAlice : String := headerHS256Seg ++ "." ++ claimsAliceSeg ++ "." ++ sigAliceSeg
/-- Token `generateJWT` issues for alice when `JWT_SECRET` is unset. -/
def tokenAliceEmptyKey : String :=
  headerHS256Seg ++ "." ++ claimsAliceSeg ++ "." ++ sigAliceEmptyKeySeg
/-- Token with an empty `username` claim, signed under `secret`. -/
def tokenAnon : String := headerHS256Seg ++ "." ++ claimsAnonSeg ++ "." ++ sigAnonSeg
/-- Token `generateJWT` issues under `secret` for the user whose name is the
single byte 0xFF. -/
def tokenMallory : String := headerHS256Seg ++ "." ++ claimsMallorySeg ++ "." ++ sigMallorySeg
/-- Unsigned token for alice with `alg` set to `none`. -/
def tokenNone : String := headerNoneSeg ++ "." ++ claimsAliceSeg ++ "."

/-- The bcrypt digest of the password `secret1`. -/
def digestSecret1 : String := "$2a$10$N9qo8uLOickgx2ZMRZoMyexQqbzVZ5QaRViw6HMmxL8lZCz/UF57."

def jsonTable : List (String × JValue) :=
  [ (headerHS256Text, .obj [("alg", .str "HS256"), ("typ", .str "JWT")]),
    (headerNoneText, .obj [("alg", .str "none"), ("typ", .str "JWT")]),
    (bodyAlice, .obj [("username", .str "alice")]),
    (bodyBob, .obj [("username", .str "bob")]),
    (bodyUpper, .obj [("USERNAME", .str "alice")]),
    (bodyEmptyObject, .obj []),
    (bodyLogin, .obj [("username", .str "alice"), ("password", .str "secret1")]) ]

def segmentTable : List (String × String) :=
  [ (headerHS256Text, headerHS256Seg), (headerNoneText, headerNoneSeg),
    (claimsAliceText, claimsAliceSeg), (claimsAnonText, claimsAnonSeg),
    (claimsMalloryText, claimsMallorySeg) ]

def octetsTable : List (Octets × String) :=
  [ ("", ""), ("00", "AA"), (sigAliceHex, sigAliceSeg),
    (sigAliceEmptyKeyHex, sigAliceEmptyKeySeg), (sigAnonHex, sigAnonSeg),
    (sigMalloryHex, sigMallorySeg) ]

def swap (p : String × String) : String × String := (p.2, p.1)

def quoteChar : Char := Char.ofNat 34
def backslashChar : Char := Char.ofNat 92
def openBrace : Char := Char.ofNat 123
def closeBrace : Char := Char.ofNat 125
def dotChar : Char := Char.ofNat 46
def tildeChar : Char := Char.ofNat 126

/-- JSON text of one rune of a string: the quote and the backslash are
escaped, a byte at which decoding fails is written as the escape of U+FFFD. -/
def escapeRune : GoRune → List Char
  | .rune c =>
    if c = quoteChar then [backslashChar, quoteChar]
    else if c = backslashChar then [backslashChar, backslashChar]
    else [c]
  | .invalid _ => [backslashChar, 'u', 'f', 'f', 'f', 'd']

def escapeGo : GoString → List Char
  | [] => []
  | x :: g => escapeRune x ++ escapeGo g

/-- JSON text of a value inside a flat object. -/
def valueChars : JValue → List Char
  | .str s => quoteChar :: escapeGo (GoString.ofString s) ++ [quoteChar]
  | .raw g => quoteChar :: escapeGo g ++ [quoteChar]
  | .num (.ofNat n) => Nat.toDigits 10 n
  | _ => ['n', 'u', 'l', 'l']

def memberChars (kv : String × JValue) : List Char :=
  quoteChar :: kv.1.data ++ quoteChar :: ':' :: valueChars kv.2

def joinMembers : List (List Char) → List Char
  | [] => []
  | [a] => a
  | a :: rest => a ++ ',' :: joinMembers rest

/-- Serialiser for flat objects, members in the order listed. -/
def marshal : JValue → String
  | .obj kvs => String.mk (openBrace :: joinMembers (kvs.map memberChars) ++ [closeBrace])
  | _ => "null"

/-- The text of a claim set of `generateJWT` up to the name. -/
def claimsOpen : List Char := ("\x7b\"expiresAt\":15000,\"username\":\"").data

def stripPrefix : List Char → List Char → Option (List Char)
  | [], cs => some cs
  | _ :: _, [] => none
  | p :: ps, c :: cs => if p = c then stripPrefix ps cs else none

/-- Reads an escaped string up to the quote that closes it, which must be
followed by the closing brace and nothing else. -/
def unescape : List Char → Option (List Char)
  | [] => none
  | c :: r =>
    if c = quoteChar then (if r = [closeBrace] then some [] else none)
    else if c = backslashChar then
      match r with
      | [] => none
      | d :: r2 =>
        if d = quoteChar then (unescape r2).map (fun x => quoteChar :: x)
        else if d = backslashChar then (unescape r2).map (fun x => backslashChar :: x)
        else
          match d, r2 with
          | 'u', 'f' :: 'f' :: 'f' :: 'd' :: r3 =>
            (unescape r3).map (fun x => Char.ofNat 0xFFFD :: x)
          | _, _ => none
    else (unescape r).map (fun x => c :: x)

/-- Parser for the claim sets of `generateJWT`. -/
def parseClaims (cs : List Char) : Option String :=
  match stripPrefix claimsOpen cs with
  | none => none
  | some rest => (unescape rest).map String.mk

def parse (s : String) : Option JValue :=
  match parseClaims s.data with
  | some name => some (.obj [("expiresAt", .num 15000), ("username", .str name)])
  | none => jsonTable.lookup s

/-- Invertible escape of the separator, for texts outside the table. -/
def escapeDot : List Char → List Char
  | [] => []
  | c :: cs =>
    if c = dotChar then tildeChar :: 'd' :: escapeDot cs
    else if c = tildeChar then tildeChar :: 't' :: escapeDot cs
    else c :: escapeDot cs

def unescapeDot : List Char → Option (List Char)
  | [] => some []
  | c :: r =>
    if c = tildeChar then
      match r with
      | [] => none
      | d :: r2 =>
        if d = 'd' then (unescapeDot r2).map (fun x => dotChar :: x)
        else if d = 't' then (unescapeDot r2).map (fun x => tildeChar :: x)
        else none
    else (unescapeDot r).map (fun x => c :: x)

def encodeSegment (s : String) : String :=
  match segmentTable.lookup s with
  | some e => e
  | none => String.mk (tildeChar :: escapeDot s.data)

def decodeSegment (e : String) : Option String :=
  match (segmentTable.map swap).lookup e with
  | some s => some s
  | none =>
    match e.data with
    | [] => none
    | c :: rest => if c = tildeChar then (unescapeDot rest).map String.mk else none

def hmacTable : List ((String × String × String) × Octets) :=
  [ (("HS256", secret, headerHS256Seg ++ "." ++ claimsAliceSeg), sigAliceHex),
    (("HS256", "", headerHS256Seg ++ "." ++ claimsAliceSeg), sigAliceEmptyKeyHex),
    (("HS256", secret, headerHS256Seg ++ "." ++ claimsAnonSeg), sigAnonHex),
    (("HS256", secret, headerHS256Seg ++ "." ++ claimsMallorySeg), sigMalloryHex) ]

def lib : Lib where
  jsonParse := parse
  jsonDecode := fun s => jsonTable.lookup s
  jsonMarshal := marshal
  encodeSegment := encodeSegment
  decodeSegment := decodeSegment
  encodeOctets := fun s => (octetsTable.lookup s).getD ""
  decodeOctets := fun s => (octetsTable.map swap).lookup s
  hmac := fun alg key msg => (hmacTable.lookup (alg, key, msg)).getD "00"
  bcryptCompare := fun hash password => hash == digestSecret1 && password == "secret1"
  float64 := fun q => q
  jsonParse_empty := rfl

/-- The server with `JWT_SECRET` set. -/
def sys : Sys := { lib := lib, environ := [("JWT_SECRET", secret)], now := 1700000000 }

/-- The server started without `JWT_SECRET`. -/
def sysNoSecret : Sys := { lib := lib, environ := [], now := 1700000000 }

def alice : User := { Name := GoString.ofString "alice", PasswordEncrypted := digestSecret1 }

/-- A stored user whose name is the single byte 0xFF, which is not UTF-8. -/
def mallory : User := { Name := [.invalid 255], PasswordEncrypted := digestSecret1 }

/-- The user with the empty name. -/
def anon : User := { Name := [], PasswordEncrypted := "" }

def bobsTransaction : Transaction :=
  { ID := 7, Username := "bob", Name := "rent", Value := 900, Currency := "EUR",
    Created_at := 1699990000, Category := "home" }

def alicesTransaction : Transaction :=
  { ID := 3, Username := "alice", Name := "lunch", Value := 12, Currency := "EUR",
    Created_at := 1699990500, Category := "food" }

def allTransactions : List Transaction := [alicesTransaction, bobsTransaction]

/-- An in-memory store; the world is the log of the calls made to it. -/
def storage : Storage (List String) where
  GetTransactionID := fun id log =>
    (orErr (allTransactions.find? (fun t => t.ID == id)) "Transaction not found",
     log ++ ["GetTransactionID"])
  GetTransactions := fun username log =>
    (.ok (allTransactions.filter (fun t => t.Username == username)),
     log ++ ["GetTransactions " ++ username])
  GetTransactionsByCategory := fun username category log =>
    (.ok (allTransactions.filter (fun t => t.Username == username && t.Category == category)),
     log ++ ["GetTransactionsByCategory " ++ username ++ " " ++ category])
  GetUser := fun name log =>
    (if name = "alice" then .ok alice else .error "User does not exist", log ++ ["GetUser " ++ name])

def server : APIServer (List String) := { Port := ":8080", Storage := storage }

/-- A store that answers every call with an error. -/
def noStorage {τ : Type} : Storage τ where
  GetTransactionID := fun _ x => (.error "unavailable", x)
  GetTransactions := fun _ x => (.error "unavailable", x)
  GetTransactionsByCategory := fun _ _ x => (.error "unavailable", x)
  GetUser := fun _ x => (.error "unavailable", x)

/-- A handler that does nothing. -/
def nopHandler : Handle Unit := fun w r _ world => { w := w, r := r, world := world }

def request (token : String) (body : String) : Request :=
  { Cookies := [{ Name := "jwtToken", Value := token }], Body := { unread := body } }

end Sample

/-! ## Specification-side definitions: passing the gate, being denied, the issued token -/

/-- A handler that counts its invocations in the world before it runs. -/
def counted {σ : Type} (h : Handle σ) : Handle (Nat × σ) :=
  fun w r ps world =>
    let x := h w r ps world.2
    { w := x.w, r := x.r, world := (world.1 + 1, x.world) }

/-- The four conditions of the gate, as the specification lists them: the
request carries a `jwtToken` cookie, `validateJWT` accepts its value with
`Valid` set, `getUsername` parses the body to `u` (leaving the request as
`r1`), and `u` is the `username` claim of the token. -/
def Authorized (S : Sys) (r : Request) (u : String) (r1 : Request) : Prop :=
  ∃ cookie token,
    r.Cookie "jwtToken" = .ok cookie ∧
    validateJWT S cookie.Value = .ok token ∧
    token.Valid = true ∧
    getUsername S.lib r = (.ok u, r1) ∧
    token.Claims.get? "username" = some (.str u)

/-- The gate denies a request: whatever the wrapped handler, it is not run
(its counter stays at zero and the world is untouched) and the writer
receives exactly `permissionDenied`. -/
def Denied (S : Sys) (r : Request) : Prop :=
  ∀ (σ : Type) (h : Handle σ) (st : Storage (Nat × σ)) (w : ResponseWriter) (ps : Params)
    (world : σ),
    (withJWTAuth S (counted h) st w r ps (0, world)).world = (0, world) ∧
    (withJWTAuth S (counted h) st w r ps (0, world)).w = permissionDenied w

/-- How many times the gate runs a wrapped handler on a request. -/
def invocations (S : Sys) (r : Request) : Nat :=
  (withJWTAuth S (counted Sample.nopHandler) Sample.noStorage {} r [] (0, ())).world.1

/-- Header of the tokens `generateJWT` issues. -/
def issuedHeader : JObject := [("alg", .str "HS256"), ("typ", .str "JWT")]

/-- Claim set `generateJWT` signs for a user. -/
def issuedClaims (user : User) : JObject :=
  [("expiresAt", .num 15000), ("username", user.Name.toJValue)]

/-- Claim set a decoder reads back from the token issued for a user: the
name as JSON carries it. -/
def decodedClaims (user : User) : JObject :=
  [("expiresAt", .num 15000), ("username", .str user.Name.toValidUTF8)]

/-- Signing string of the token `generateJWT` issues for a user. -/
def issuedSigningString (L : Lib) (user : User) : String :=
  L.encodeSegment (L.jsonMarshal (.obj issuedHeader)) ++ "." ++
    L.encodeSegment (L.jsonMarshal (.obj (issuedClaims user)))

/-- MAC tag of the token `generateJWT` issues for a user under a secret. -/
def issuedSignature (L : Lib) (secret : String) (user : User) : Octets :=
  L.hmac "HS256" secret (issuedSigningString L user)

/-- The codec primitives invert each other on the token issued for a user:
JSON decoding inverts encoding on its header and on its claim set (up to
the replacement of invalid bytes in the name), base64url decoding inverts
encoding on its three segments, and no segment contains the separator. -/
def CodecRoundTrips (L : Lib) (secret : String) (user : User) : Prop :=
  L.jsonParse (L.jsonMarshal (.obj issuedHeader)) = some (.obj issuedHeader) ∧
  L.jsonParse (L.jsonMarshal (.obj (issuedClaims user))) = some (.obj (decodedClaims user)) ∧
  L.decodeSegment (L.encodeSegment (L.jsonMarshal (.obj issuedHeader))) =
    some (L.jsonMarshal (.obj issuedHeader)) ∧
  L.decodeSegment (L.encodeSegment (L.jsonMarshal (.obj (issuedClaims user)))) =
    some (L.jsonMarshal (.obj (issuedClaims user))) ∧
  L.decodeOctets (L.encodeOctets (issuedSignature L secret user)) =
    some (issuedSignature L secret user) ∧
  '.' ∉ (L.encodeSegment (L.jsonMarshal (.obj issuedHeader))).data ∧
  '.' ∉ (L.encodeSegment (L.jsonMarshal (.obj (issuedClaims user)))).data ∧
  '.' ∉ (L.encodeOctets (issuedSignature L secret user)).data

/-- The codecs of the imported packages invert each other on every token
`generateJWT` issues, whatever the secret and the user. -/
def Lib.Lawful (L : Lib) : Prop :=
  ∀ (secret : String) (user : User), CodecRoundTrips L secret user

/-- The token `validateJWT` returns for the token issued for a user. -/
def verifiedToken (L : Lib) (secret : String) (user : User) : Token :=
  { Raw := issuedSigningString L user ++ "." ++ L.encodeOctets (issuedSignature L secret user),
    Method := .HMAC "HS256", Header := issuedHeader, Claims := decodedClaims user,
    Signature := issuedSignature L secret user, Valid := true }

/-- The `alg` a token string names in its header: the first segment,
base64url-decoded and JSON-decoded as `ParseUnverified` does. -/
def headerAlg (L : Lib) (tokenString : String) : Option String :=
  match Split tokenString '.' with
  | [] => none
  | p0 :: _ =>
    match L.decodeSegment p0 with
    | none => none
    | some headerBytes =>
      match L.jsonParse headerBytes with
      | none => none
      | some headerJSON =>
        match decodeMap [] headerJSON with
        | .error _ => none
        | .ok header =>
          match header.get? "alg" with
          | some (.str alg) => some alg
          | _ => none

/-- The `alg` names of the symmetric HMAC family. -/
def hmacAlgs : List String := ["HS256", "HS384", "HS512"]

/-- Transactions a payload carries. -/
def Payload.written : Payload → List Transaction
  | .transaction t => [t]
  | .transactions ts => ts
  | _ => []

/-- Transactions written to a response. -/
def writtenTransactions (w : ResponseWriter) : List Transaction :=
  w.body.foldr (fun p acc => p.written ++ acc) []

/-! ## The gate: passing and being denied -/

theorem ifaceEqString_iff (v : Option JValue) (s : String) :
    ifaceEqString v s = true ↔ v = some (.str s) := by
  unfold ifaceEqString
  split
  · rename_i t
    simp
  · rename_i hne
    constructor
    · intro h
      cases h
    · intro h
      exact absurd h (hne s)

theorem withJWTAuth_of_authorized {σ : Type} (S : Sys) (h : Handle σ) (st : Storage σ)
    (w : ResponseWriter) (r : Request) (ps : Params) (world : σ) (u : String) (r1 : Request)
    (ha : Authorized S r u r1) :
    withJWTAuth S h st w r ps world = h w r1 ps world := by
  obtain ⟨cookie, token, hc, hv, hvalid, hu, hcl⟩ := ha
  have hcmp : ifaceEqString (token.Claims.get? "username") u = true :=
    (ifaceEqString_iff _ _).mpr hcl
  simp [withJWTAuth, hc, hv, hvalid, hu, hcmp]

theorem withJWTAuth_of_not_authorized {σ : Type} (S : Sys) (h : Handle σ) (st : Storage σ)
    (w : ResponseWriter) (r : Request) (ps : Params) (world : σ)
    (hn : ¬ ∃ u r1, Authorized S r u r1) :
    (withJWTAuth S h st w r ps world).w = permissionDenied w ∧
    (withJWTAuth S h st w r ps world).world = world := by
  unfold withJWTAuth
  cases hc : r.Cookie "jwtToken" with
  | error e => simp
  | ok cookie =>
    cases hv : validateJWT S cookie.Value with
    | error e => simp [hv]
    | ok token =>
      cases hvalid : token.Valid with
      | false => simp [hv, hvalid]
      | true =>
        rcases hu : getUsername S.lib r with ⟨res, r1⟩
        cases res with
        | error e => simp [hv, hvalid]
        | ok u =>
          cases hcmp : ifaceEqString (token.Claims.get? "username") u with
          | false => simp [hv, hvalid, hcmp]
          | true =>
            exact absurd ⟨u, r1, cookie, token, hc, hv, hvalid, hu,
              (ifaceEqString_iff _ _).mp hcmp⟩ hn

theorem denied_of_not_authorized (S : Sys) (r : Request)
    (hn : ¬ ∃ u r1, Authorized S r u r1) : Denied S r := by
  intro σ h st w ps world
  have := withJWTAuth_of_not_authorized S (counted h) st w r ps (0, world) hn
  exact ⟨this.2, this.1⟩

theorem not_authorized_of_denied (S : Sys) (r : Request) (hd : Denied S r) :
    ¬ ∃ u r1, Authorized S r u r1 := by
  rintro ⟨u, r1, ha⟩
  have h0 := (hd Unit Sample.nopHandler Sample.noStorage {} [] ()).1
  rw [withJWTAuth_of_authorized S _ _ _ r _ _ u r1 ha] at h0
  simp [counted] at h0

theorem invocations_eq_one_iff (S : Sys) (r : Request) :
    invocations S r = 1 ↔ ∃ u r1, Authorized S r u r1 := by
  unfold invocations
  constructor
  · intro h1
    by_contra hn
    have h0 := (withJWTAuth_of_not_authorized S (counted Sample.nopHandler) Sample.noStorage {} r []
      (0, ()) hn).2
    rw [h0] at h1
    cases h1
  · rintro ⟨u, r1, ha⟩
    rw [withJWTAuth_of_authorized S _ _ _ r _ _ u r1 ha]
    rfl

theorem invocations_eq_zero_iff (S : Sys) (r : Request) :
    invocations S r = 0 ↔ ¬ ∃ u r1, Authorized S r u r1 := by
  unfold invocations
  constructor
  · rintro h0 ⟨u, r1, ha⟩
    rw [withJWTAuth_of_authorized S _ _ _ r _ _ u r1 ha] at h0
    cases h0
  · intro hn
    rw [(withJWTAuth_of_not_authorized S (counted Sample.nopHandler) Sample.noStorage {} r []
      (0, ()) hn).2]

/-! ## getUsername and the request body -/

theorem getUsername_ok_iff (L : Lib) (r : Request) (u : String) (r1 : Request) :
    getUsername L r = (.ok u, r1) ↔
      r.Body.failure = none ∧
      ∃ req, unmarshalCTR L r.Body.unread {} = .ok req ∧ req.Username = u ∧
        r1 = { r with Body := NewReader r.Body.unread } := by
  cases hf : r.Body.failure with
  | some e => simp [getUsername, ReadAll, hf]
  | none =>
    cases hm : unmarshalCTR L r.Body.unread {} with
    | error e => simp [getUsername, ReadAll, hf, hm]
    | ok req =>
      simp only [getUsername, ReadAll, hf, hm, Prod.mk.injEq, Except.ok.injEq, true_and]
      constructor
      · rintro ⟨h1, h2⟩
        exact ⟨req, rfl, h1, h2.symm⟩
      · rintro ⟨req2, h1, h2, h3⟩
        cases h1
        exact ⟨h2, h3.symm⟩

theorem getUsername_error_of_parse_none (L : Lib) (r : Request)
    (hp : L.jsonParse r.Body.unread = none) : ∃ e r1, getUsername L r = (.error e, r1) := by
  cases hf : r.Body.failure with
  | some e =>
    exact ⟨e, { r with Body := { unread := "", failure := some e } },
      by simp [getUsername, ReadAll, hf]⟩
  | none =>
    exact ⟨"invalid character or unexpected end of JSON input",
      { r with Body := { unread := "", failure := none } },
      by simp [getUsername, ReadAll, hf, unmarshalCTR, hp]⟩

theorem getUsername_again (L : Lib) (r : Request) (u : String) (r1 : Request)
    (h : getUsername L r = (.ok u, r1)) : getUsername L r1 = (.ok u, r1) := by
  obtain ⟨_, req, hm, hu, hr⟩ := (getUsername_ok_iff L r u r1).mp h
  subst hr
  exact (getUsername_ok_iff L _ u _).mpr ⟨rfl, req, hm, hu, rfl⟩

/-! ## Issuing and verifying a token -/

theorem splitOnChar_append_sep (sep : Char) (a rest : List Char) (h : sep ∉ a) :
    splitOnChar sep (a ++ sep :: rest) = a :: splitOnChar sep rest := by
  induction a with
  | nil => simp [splitOnChar]
  | cons c cs ih =>
    have hc : c ≠ sep := fun e => h (by simp [e])
    have hcs : sep ∉ cs := fun m => h (List.mem_cons_of_mem _ m)
    simp [splitOnChar, hc, ih hcs]

theorem splitOnChar_no_sep (sep : Char) (a : List Char) (h : sep ∉ a) :
    splitOnChar sep a = [a] := by
  induction a with
  | nil => rfl
  | cons c cs ih =>
    have hc : c ≠ sep := fun e => h (by simp [e])
    have hcs : sep ∉ cs := fun m => h (List.mem_cons_of_mem _ m)
    simp [splitOnChar, hc, ih hcs]

theorem Split_three (a b c : String) (ha : '.' ∉ a.data) (hb : '.' ∉ b.data)
    (hc : '.' ∉ c.data) : Split (a ++ "." ++ b ++ "." ++ c) '.' = [a, b, c] := by
  have hdot : (".": String).data = ['.'] := rfl
  have hdata : (a ++ "." ++ b ++ "." ++ c).data = a.data ++ '.' :: (b.data ++ '.' :: c.data) := by
    simp [String.data_append, hdot]
  unfold Split
  rw [hdata, splitOnChar_append_sep _ _ _ ha, splitOnChar_append_sep _ _ _ hb,
    splitOnChar_no_sep _ _ hc]
  rfl

theorem generateJWT_eq (S : Sys) (user : User) :
    generateJWT S user =
      .ok (issuedSigningString S.lib user ++ "." ++
        S.lib.encodeOctets (issuedSignature S.lib (Getenv S.environ "JWT_SECRET") user)) := by
  rfl

theorem issuedHeader_alg : issuedHeader.get? "alg" = some (.str "HS256") := by
  simp [issuedHeader, JObject.get?, List.filter]

theorem decodedClaims_username (user : User) :
    (decodedClaims user).get? "username" = some (.str user.Name.toValidUTF8) := by
  simp [decodedClaims, JObject.get?, List.filter]

theorem decodedClaims_valid (L : Lib) (now : Int) (user : User) :
    Validate L now (decodedClaims user) = .ok () := by
  have h1 : (decodedClaims user).get? "exp" = none := by
    simp [decodedClaims, JObject.get?, List.filter]
  have h2 : (decodedClaims user).get? "nbf" = none := by
    simp [decodedClaims, JObject.get?, List.filter]
  simp [Validate, verifyExpiresAt, verifyNotBefore, parseNumericDate, h1, h2]

/-- Whatever the clock reads, `validateJWT` accepts the token `generateJWT`
issued, provided the codec round-trips on it. -/
theorem validateJWT_issued (S : Sys) (user : User) (now : Int)
    (hrt : CodecRoundTrips S.lib (Getenv S.environ "JWT_SECRET") user) :
    validateJWT { S with now := now }
        (issuedSigningString S.lib user ++ "." ++
          S.lib.encodeOctets (issuedSignature S.lib (Getenv S.environ "JWT_SECRET") user)) =
      .ok (verifiedToken S.lib (Getenv S.environ "JWT_SECRET") user) := by
  obtain ⟨hjh, hjc, hdh, hdc, hds, hnh, hnc, hns⟩ := hrt
  have hsplit := Split_three _ _ _ hnh hnc hns
  simp only [issuedSigningString, issuedSignature] at hsplit hds ⊢
  simp [validateJWT, Parse, ParseUnverified, hsplit, hdh, hjh, hdc, hjc, hds, orErr, decodeMap,
    issuedHeader_alg, GetSigningMethod, SigningMethod.Verify, decodedClaims_valid, verifiedToken,
    issuedSignature, issuedSigningString, bind, Except.bind, pure, Except.pure]

/-! ## The claims -/

/-- C1: the gate runs the wrapped handler exactly once when the request
carries a `jwtToken` cookie whose value `validateJWT` accepts with `Valid`
set, `getUsername` parses the body, and the parsed username is the token's
`username` claim; in every other case the handler is not run at all.  When
it runs, it runs on the writer, the parameters and the world it was given
and on the request as `getUsername` left it. -/
theorem withJWTAuth_invokes_iff_authorized {σ : Type} (S : Sys) (h : Handle σ)
    (st : Storage (Nat × σ)) (st0 : Storage σ) (w : ResponseWriter) (r : Request) (ps : Params)
    (world : σ) :
    ((withJWTAuth S (counted h) st w r ps (0, world)).world.1 = 1 ↔
      ∃ u r1, Authorized S r u r1) ∧
    ((withJWTAuth S (counted h) st w r ps (0, world)).world.1 = 0 ↔
      ¬ ∃ u r1, Authorized S r u r1) ∧
    (∀ u r1, Authorized S r u r1 → withJWTAuth S h st0 w r ps world = h w r1 ps world) := by
  refine ⟨?_, ?_, fun u r1 ha => withJWTAuth_of_authorized S h st0 w r ps world u r1 ha⟩
  · constructor
    · intro h1
      by_contra hn
      have h0 := (withJWTAuth_of_not_authorized S (counted h) st w r ps (0, world) hn).2
      rw [h0] at h1
      cases h1
    · rintro ⟨u, r1, ha⟩
      rw [withJWTAuth_of_authorized S _ _ _ r _ _ u r1 ha]
      rfl
  · constructor
    · rintro h0 ⟨u, r1, ha⟩
      rw [withJWTAuth_of_authorized S _ _ _ r _ _ u r1 ha] at h0
      simp [counted] at h0
    · intro hn
      rw [(withJWTAuth_of_not_authorized S (counted h) st w r ps (0, world) hn).2]

/-- C7: any two requests the gate denies, for whatever reason and under
whatever handlers, leave the same response on the same writer: the one
`permissionDenied` writes, which on a fresh writer is status 403 with the
JSON content type and the single body value `error: permission denied`. -/
theorem withJWTAuth_denial_uniform {σ τ : Type} (S : Sys) (h1 : Handle σ) (h2 : Handle τ)
    (st1 : Storage σ) (st2 : Storage τ) (w : ResponseWriter) (r1 r2 : Request) (ps1 ps2 : Params)
    (world1 : σ) (world2 : τ)
    (hd1 : ¬ ∃ u r, Authorized S r1 u r) (hd2 : ¬ ∃ u r, Authorized S r2 u r) :
    (withJWTAuth S h1 st1 w r1 ps1 world1).w = (withJWTAuth S h2 st2 w r2 ps2 world2).w ∧
    (withJWTAuth S h1 st1 w r1 ps1 world1).w =
      WriteJSON w StatusForbidden (.apiError { Error := "permission denied" }) ∧
    (withJWTAuth S h1 st1 {} r1 ps1 world1).w =
      { header := [("Content-Type", "application/json")], status := some 403, cookies := [],
        body := [.apiError { Error := "permission denied" }] } := by
  have e1 := (withJWTAuth_of_not_authorized S h1 st1 w r1 ps1 world1 hd1).1
  have e2 := (withJWTAuth_of_not_authorized S h2 st2 w r2 ps2 world2 hd2).1
  have e3 := (withJWTAuth_of_not_authorized S h1 st1 {} r1 ps1 world1 hd1).1
  refine ⟨e1.trans e2.symm, e1, e3.trans ?_⟩
  rfl

/-- Witness for C7: a request without cookie and a request whose body names
bob under alice's token are both denied, with the same response. -/
theorem withJWTAuth_denial_uniform_witness :
    (¬ ∃ u r, Authorized Sample.sys { Cookies := [], Body := { unread := Sample.bodyAlice } } u r) ∧
    (¬ ∃ u r, Authorized Sample.sys (Sample.request Sample.tokenAlice Sample.bodyBob) u r) ∧
    (withJWTAuth Sample.sys Sample.nopHandler Sample.noStorage {}
        { Cookies := [], Body := { unread := Sample.bodyAlice } } [] ()).w =
      (withJWTAuth Sample.sys Sample.nopHandler Sample.noStorage {}
        (Sample.request Sample.tokenAlice Sample.bodyBob) [] ()).w :=
  ⟨(invocations_eq_zero_iff _ _).mp (by decide), (invocations_eq_zero_iff _ _).mp (by decide),
    (withJWTAuth_denial_uniform Sample.sys Sample.nopHandler Sample.nopHandler Sample.noStorage
      Sample.noStorage {} _ _ [] [] () ()
      ((invocations_eq_zero_iff _ _).mp (by decide))
      ((invocations_eq_zero_iff _ _).mp (by decide))).1⟩

/-- C10: when `getUsername` reads and parses the body without error, the
request it leaves behind holds a fresh reader over exactly the bytes read,
so reading it again yields the same byte sequence without error, a second
`getUsername` returns the same username, and `handleGetTransaction` and
`handleGetTransactionCategory`, run on that request, call the store with
that same username. -/
theorem getUsername_preserves_body {σ : Type} (S : Sys) (s : APIServer σ) (r : Request)
    (u : String) (r1 : Request) (h : getUsername S.lib r = (.ok u, r1)) :
    (ReadAll r1.Body).1 = (ReadAll r.Body).1 ∧
    (ReadAll r1.Body).2.1 = none ∧
    r1.Cookies = r.Cookies ∧
    getUsername S.lib r1 = (.ok u, r1) ∧
    (∀ w ps world,
      handleGetTransaction S s w r1 ps world =
        match s.Storage.GetTransactions u world with
        | (.error err, world1) => (some err, { w := w, r := r1, world := world1 })
        | (.ok transactions, world1) =>
          (none, { w := WriteJSON w StatusOK (.transactions transactions), r := r1,
                   world := world1 })) ∧
    (∀ w ps world,
      handleGetTransactionCategory S s w r1 ps world =
        match s.Storage.GetTransactionsByCategory u (ByName ps "category") world with
        | (.error err, world1) => (some err, { w := w, r := r1, world := world1 })
        | (.ok transactions, world1) =>
          (none, { w := WriteJSON w StatusOK (.transactions transactions), r := r1,
                   world := world1 })) := by
  have h2 := getUsername_again S.lib r u r1 h
  obtain ⟨_, req, _, _, hr⟩ := (getUsername_ok_iff S.lib r u r1).mp h
  refine ⟨?_, ?_, ?_, h2, ?_, ?_⟩
  · subst hr; rfl
  · subst hr; rfl
  · subst hr; rfl
  · intro w ps world
    simp only [handleGetTransaction, h2]
  · intro w ps world
    simp only [handleGetTransactionCategory, h2]

/-- Witness for C10: the body naming alice is read, parsed and put back, and
the handler behind the gate asks the store for alice. -/
theorem getUsername_preserves_body_witness :
    getUsername Sample.sys.lib (Sample.request Sample.tokenAlice Sample.bodyAlice) =
      (.ok "alice", Sample.request Sample.tokenAlice Sample.bodyAlice) ∧
    (ReadAll (Sample.request Sample.tokenAlice Sample.bodyAlice).Body).1 = Sample.bodyAlice ∧
    (handleGetTransaction Sample.sys Sample.server {}
        (Sample.request Sample.tokenAlice Sample.bodyAlice) [] []).2.world =
      ["GetTransactions alice"] :=
  ⟨rfl,
    (getUsername_preserves_body Sample.sys Sample.server
      (Sample.request Sample.tokenAlice Sample.bodyAlice) "alice"
      (Sample.request Sample.tokenAlice Sample.bodyAlice) rfl).1,
    (congrArg (fun x => x.2.world)
      ((getUsername_preserves_body Sample.sys Sample.server
        (Sample.request Sample.tokenAlice Sample.bodyAlice) "alice"
        (Sample.request Sample.tokenAlice Sample.bodyAlice) rfl).2.2.2.2.1 {} [] [])).trans rfl⟩

/-! ### Go strings and the sample codecs -/

theorem GoString.toValidUTF8_ofString (s : String) : (GoString.ofString s).toValidUTF8 = s := by
  have h : ∀ l : List Char, List.map GoRune.coerce (List.map GoRune.rune l) = l := by
    intro l
    induction l with
    | nil => rfl
    | cons c cs ih => simp [GoRune.coerce, ih]
  simp [GoString.ofString, GoString.toValidUTF8, h]

theorem GoString.ofString_toValidUTF8 (g : GoString) (h : g.isValid = true) :
    GoString.ofString g.toValidUTF8 = g := by
  induction g with
  | nil => rfl
  | cons x xs ih =>
    cases x with
    | rune c =>
      have hxs : GoString.isValid xs = true := by
        simpa [GoString.isValid, GoRune.isRune] using h
      have := ih hxs
      simp only [GoString.ofString, GoString.toValidUTF8] at this ⊢
      simp [GoRune.coerce, this]
    | invalid b => simp [GoString.isValid, GoRune.isRune] at h

theorem GoString.toJValue_of_valid (g : GoString) (h : g.isValid = true) :
    g.toJValue = .str g.toValidUTF8 := by
  simp [GoString.toJValue, h]

theorem Sample.stripPrefix_append (p x : List Char) : Sample.stripPrefix p (p ++ x) = some x := by
  induction p with
  | nil => cases x <;> rfl
  | cons c cs ih => simp [Sample.stripPrefix, ih]

theorem Sample.unescape_escapeGo (g : GoString) :
    Sample.unescape (Sample.escapeGo g ++ [Sample.quoteChar, Sample.closeBrace]) =
      some (g.map GoRune.coerce) := by
  have hbq : Sample.backslashChar ≠ Sample.quoteChar := by decide
  have huq : 'u' ≠ Sample.quoteChar := by decide
  have hub : 'u' ≠ Sample.backslashChar := by decide
  induction g with
  | nil => simp [Sample.escapeGo, Sample.unescape]
  | cons x xs ih =>
    cases x with
    | rune c =>
      by_cases hq : c = Sample.quoteChar
      · subst hq
        simp [Sample.escapeGo, Sample.escapeRune, Sample.unescape, hbq, ih, GoRune.coerce]
      · by_cases hb : c = Sample.backslashChar
        · subst hb
          simp [Sample.escapeGo, Sample.escapeRune, Sample.unescape, hbq, ih, GoRune.coerce]
        · simp only [Sample.escapeGo, Sample.escapeRune, hq, hb, if_false, List.singleton_append,
            List.cons_append, List.nil_append, List.map_cons, GoRune.coerce]
          rw [Sample.unescape.eq_def]
          simp [hq, hb, ih]
    | invalid b =>
      simp [Sample.escapeGo, Sample.escapeRune, Sample.unescape, hbq, huq, hub, ih,
        GoRune.coerce]

theorem Sample.valueChars_toJValue (g : GoString) :
    Sample.valueChars g.toJValue = Sample.quoteChar :: Sample.escapeGo g ++ [Sample.quoteChar] := by
  by_cases h : g.isValid = true
  · rw [GoString.toJValue_of_valid g h]
    simp only [Sample.valueChars]
    rw [GoString.ofString_toValidUTF8 g h]
  · simp [GoString.toJValue, h, Sample.valueChars]

theorem Sample.marshal_issuedClaims (user : User) :
    (Sample.marshal (.obj (issuedClaims user))).data =
      Sample.claimsOpen ++ (Sample.escapeGo user.Name ++ [Sample.quoteChar, Sample.closeBrace]) := by
  have hopen : Sample.claimsOpen =
      Sample.openBrace :: (Sample.memberChars ("expiresAt", .num 15000) ++
        ',' :: Sample.quoteChar :: ("username".data ++ [Sample.quoteChar, ':', Sample.quoteChar])) := by
    decide
  rw [hopen]
  simp [Sample.marshal, issuedClaims, Sample.joinMembers, Sample.memberChars,
    Sample.valueChars_toJValue]

theorem Sample.parse_marshal_issuedClaims (user : User) :
    Sample.parse (Sample.marshal (.obj (issuedClaims user))) = some (.obj (decodedClaims user)) := by
  simp only [Sample.parse, Sample.parseClaims, Sample.marshal_issuedClaims,
    Sample.stripPrefix_append, Sample.unescape_escapeGo, Option.map_some', decodedClaims,
    GoString.toValidUTF8]

theorem lookup_some_mem {α β : Type} [BEq α] [LawfulBEq α] (l : List (α × β)) (k : α) (v : β)
    (h : l.lookup k = some v) : (k, v) ∈ l := by
  induction l with
  | nil => simp [List.lookup] at h
  | cons p ps ih =>
    obtain ⟨a, b⟩ := p
    by_cases hk : k = a
    · subst hk
      simp [List.lookup] at h
      simp [h]
    · have hbeq : (k == a) = false := by simpa using hk
      simp only [List.lookup, hbeq] at h
      exact List.mem_cons_of_mem _ (ih h)

theorem lookup_none_of_ne {α β : Type} [BEq α] [LawfulBEq α] (l : List (α × β)) (k : α)
    (h : ∀ p ∈ l, p.1 ≠ k) : l.lookup k = none := by
  induction l with
  | nil => rfl
  | cons p ps ih =>
    obtain ⟨a, b⟩ := p
    have hk : (k == a) = false := by
      have := h (a, b) (List.mem_cons_self _ _)
      simpa using fun e => this e.symm
    simp only [List.lookup, hk]
    exact ih (fun q hq => h q (List.mem_cons_of_mem _ hq))

theorem Sample.unescapeDot_escapeDot (l : List Char) :
    Sample.unescapeDot (Sample.escapeDot l) = some l := by
  have hdt : ('d' : Char) ≠ 't' := by decide
  induction l with
  | nil => rfl
  | cons c cs ih =>
    by_cases hd : c = Sample.dotChar
    · subst hd
      simp [Sample.escapeDot, Sample.unescapeDot, ih]
    · by_cases ht : c = Sample.tildeChar
      · subst ht
        have hne : Sample.tildeChar ≠ Sample.dotChar := by decide
        simp [Sample.escapeDot, Sample.unescapeDot, ih, hne]
      · simp only [Sample.escapeDot, hd, ht, if_false]
        rw [Sample.unescapeDot.eq_def]
        simp [ht, ih]

theorem Sample.escapeDot_noDot (l : List Char) : Sample.dotChar ∉ Sample.escapeDot l := by
  induction l with
  | nil => simp [Sample.escapeDot]
  | cons c cs ih =>
    have h1 : Sample.dotChar ≠ Sample.tildeChar := by decide
    have h2 : Sample.dotChar ≠ 'd' := by decide
    have h3 : Sample.dotChar ≠ 't' := by decide
    by_cases hd : c = Sample.dotChar
    · simp [Sample.escapeDot, hd, h1, h2, ih]
    · by_cases ht : c = Sample.tildeChar
      · have h4 : Sample.tildeChar ≠ Sample.dotChar := by decide
        simp [Sample.escapeDot, ht, h1, h3, h4, ih]
      · simp [Sample.escapeDot, hd, ht, ih, Ne.symm hd]

theorem Sample.mk_tilde_ne (x : List Char) (t : String)
    (h : t.data.head? ≠ some Sample.tildeChar) : t ≠ String.mk (Sample.tildeChar :: x) := by
  intro e
  apply h
  rw [e]
  rfl

theorem Sample.decodeSegment_encodeSegment (s : String) :
    Sample.decodeSegment (Sample.encodeSegment s) = some s := by
  unfold Sample.encodeSegment
  cases hl : Sample.segmentTable.lookup s with
  | some e =>
    have hm := lookup_some_mem _ _ _ hl
    simp only [Sample.segmentTable, List.mem_cons, Prod.mk.injEq, List.mem_singleton,
      List.not_mem_nil, or_false] at hm
    rcases hm with ⟨h1, h2⟩ | ⟨h1, h2⟩ | ⟨h1, h2⟩ | ⟨h1, h2⟩ | ⟨h1, h2⟩ <;>
      (subst h1; subst h2; rfl)
  | none =>
    have hnone : (Sample.segmentTable.map Sample.swap).lookup
        (String.mk (Sample.tildeChar :: Sample.escapeDot s.data)) = none := by
      apply lookup_none_of_ne
      intro p hp
      simp only [Sample.segmentTable, Sample.swap, List.map_cons, List.map_nil, List.mem_cons,
        List.mem_singleton, List.not_mem_nil, or_false] at hp
      rcases hp with h | h | h | h | h <;>
        (subst h; exact Sample.mk_tilde_ne _ _ (by decide))
    simp [Sample.decodeSegment, hnone, Sample.unescapeDot_escapeDot]

theorem Sample.encodeSegment_noDot (s : String) : '.' ∉ (Sample.encodeSegment s).data := by
  unfold Sample.encodeSegment
  cases hl : Sample.segmentTable.lookup s with
  | some e =>
    have hm := lookup_some_mem _ _ _ hl
    simp only [Sample.segmentTable, List.mem_cons, Prod.mk.injEq, List.mem_singleton,
      List.not_mem_nil, or_false] at hm
    rcases hm with ⟨h1, h2⟩ | ⟨h1, h2⟩ | ⟨h1, h2⟩ | ⟨h1, h2⟩ | ⟨h1, h2⟩ <;>
      (subst h1; subst h2; decide)
  | none =>
    intro hmem
    have hne : ('.' : Char) ≠ Sample.tildeChar := by decide
    simp only [List.mem_cons, hne, false_or] at hmem
    exact Sample.escapeDot_noDot _ hmem

theorem Sample.hmac_values (alg key msg : String) :
    Sample.lib.hmac alg key msg ∈
      ["00", Sample.sigAliceHex, Sample.sigAliceEmptyKeyHex, Sample.sigAnonHex,
        Sample.sigMalloryHex] := by
  show (Sample.hmacTable.lookup (alg, key, msg)).getD "00" ∈ _
  cases hl : Sample.hmacTable.lookup (alg, key, msg) with
  | none => simp
  | some v =>
    have hm := lookup_some_mem _ _ _ hl
    simp only [Sample.hmacTable, List.mem_cons, Prod.mk.injEq, List.mem_singleton,
      List.not_mem_nil, or_false] at hm
    rcases hm with ⟨_, h⟩ | ⟨_, h⟩ | ⟨_, h⟩ | ⟨_, h⟩ <;> simp [h]

theorem Sample.octets_round_trip (o : Octets)
    (h : o ∈ ["00", Sample.sigAliceHex, Sample.sigAliceEmptyKeyHex, Sample.sigAnonHex,
      Sample.sigMalloryHex]) :
    Sample.lib.decodeOctets (Sample.lib.encodeOctets o) = some o ∧
      '.' ∉ (Sample.lib.encodeOctets o).data := by
  simp only [List.mem_cons, List.mem_singleton, List.not_mem_nil, or_false] at h
  rcases h with h | h | h | h | h <;> (subst h; exact ⟨rfl, by decide⟩)

/-- The sample codecs are inverse to each other on every issued token. -/
theorem Sample.lawful : Sample.lib.Lawful := by
  intro secret user
  have ho := Sample.octets_round_trip _ (Sample.hmac_values "HS256" secret
    (issuedSigningString Sample.lib user))
  exact ⟨rfl, Sample.parse_marshal_issuedClaims user,
    Sample.decodeSegment_encodeSegment (Sample.marshal (.obj issuedHeader)),
    Sample.decodeSegment_encodeSegment (Sample.marshal (.obj (issuedClaims user))), ho.1,
    Sample.encodeSegment_noDot (Sample.marshal (.obj issuedHeader)),
    Sample.encodeSegment_noDot (Sample.marshal (.obj (issuedClaims user))), ho.2⟩

theorem Sample.roundTrips : CodecRoundTrips Sample.lib Sample.secret Sample.alice :=
  Sample.lawful Sample.secret Sample.alice

theorem Sample.roundTrips_noSecret : CodecRoundTrips Sample.lib "" Sample.alice :=
  Sample.lawful "" Sample.alice

/-- C5 (amended): for every user whose name is valid UTF-8 and every value
of the signing secret, the codecs of the imported packages being inverse to
each other on issued tokens, `generateJWT` returns a token which
`validateJWT`, run at once, accepts with `Valid` set and with exactly the
user's name as `username` claim; a request that carries that token in its
`jwtToken` cookie and whose body parses to that name passes the gate. -/
theorem generateJWT_validateJWT_round_trip (S : Sys) (user : User)
    (hL : S.lib.Lawful) (hvalid : user.Name.isValid = true) :
    ∃ t token,
      generateJWT S user = .ok t ∧
      validateJWT S t = .ok token ∧
      token.Valid = true ∧
      token.Claims.get? "username" = some user.Name.toJValue ∧
      GoString.ofString user.Name.toValidUTF8 = user.Name ∧
      ∀ (σ : Type) (h : Handle σ) (st : Storage σ) (w : ResponseWriter) (r r1 : Request)
        (c : Cookie) (ps : Params) (world : σ),
        r.Cookie "jwtToken" = .ok c → c.Value = t →
        getUsername S.lib r = (.ok user.Name.toValidUTF8, r1) →
        withJWTAuth S h st w r ps world = h w r1 ps world := by
  have hv := validateJWT_issued S user S.now (hL (Getenv S.environ "JWT_SECRET") user)
  refine ⟨_, _, generateJWT_eq S user, hv, rfl, ?_, GoString.ofString_toValidUTF8 _ hvalid, ?_⟩
  · rw [GoString.toJValue_of_valid _ hvalid]
    exact decodedClaims_username user
  · intro σ h st w r r1 c ps world hc hct hu
    exact withJWTAuth_of_authorized S h st w r ps world user.Name.toValidUTF8 r1
      ⟨c, _, hc, by rw [hct]; exact hv, rfl, hu, decodedClaims_username user⟩

/-- Witness for C5: the sample codecs are lawful and alice's name is valid. -/
theorem generateJWT_validateJWT_round_trip_witness :
    Sample.sys.lib.Lawful ∧ Sample.alice.Name.isValid = true ∧
    ∃ t token,
      generateJWT Sample.sys Sample.alice = .ok t ∧
      validateJWT Sample.sys t = .ok token ∧
      token.Valid = true ∧
      token.Claims.get? "username" = some (.str "alice") ∧
      GoString.ofString "alice" = Sample.alice.Name ∧
      ∀ (σ : Type) (h : Handle σ) (st : Storage σ) (w : ResponseWriter) (r r1 : Request)
        (c : Cookie) (ps : Params) (world : σ),
        r.Cookie "jwtToken" = .ok c → c.Value = t →
        getUsername Sample.sys.lib r = (.ok "alice", r1) →
        withJWTAuth Sample.sys h st w r ps world = h w r1 ps world :=
  ⟨Sample.lawful, rfl,
    generateJWT_validateJWT_round_trip Sample.sys Sample.alice Sample.lawful rfl⟩

/-- Counterexample to C5 as stated: for the stored user whose name is the
single byte 0xFF, `generateJWT` returns a token and `validateJWT` accepts it
with `Valid` set, but its `username` claim is U+FFFD, which is not the
user's name. -/
theorem generateJWT_validateJWT_round_trip_counterexample :
    generateJWT Sample.sys Sample.mallory = .ok Sample.tokenMallory ∧
    validateJWT Sample.sys Sample.tokenMallory =
      .ok (verifiedToken Sample.lib Sample.secret Sample.mallory) ∧
    (verifiedToken Sample.lib Sample.secret Sample.mallory).Valid = true ∧
    (verifiedToken Sample.lib Sample.secret Sample.mallory).Claims.get? "username" =
      some (.str (String.mk [Char.ofNat 0xFFFD])) ∧
    GoString.ofString (String.mk [Char.ofNat 0xFFFD]) ≠ Sample.mallory.Name ∧
    (verifiedToken Sample.lib Sample.secret Sample.mallory).Claims.get? "username" ≠
      some Sample.mallory.Name.toJValue := by
  refine ⟨rfl, rfl, rfl, rfl, by decide, ?_⟩
  intro h
  have h2 : (verifiedToken Sample.lib Sample.secret Sample.mallory).Claims.get? "username" =
      some (.str (String.mk [Char.ofNat 0xFFFD])) := rfl
  rw [h2] at h
  have h3 : Sample.mallory.Name.toJValue = .raw [.invalid 255] := rfl
  rw [h3] at h
  cases h

/-- C4 (code): the token `generateJWT` issues carries `expiresAt` = 15000
but no `exp` claim, and `validateJWT` accepts it with `Valid` set at every
clock value, those at or after 15000 included; a request carrying it and
naming the user passes the gate at every clock value. -/
theorem generateJWT_token_never_expires (S : Sys) (user : User) (now : Int)
    (hrt : CodecRoundTrips S.lib (Getenv S.environ "JWT_SECRET") user) :
    ∃ t token,
      generateJWT S user = .ok t ∧
      validateJWT { S with now := now } t = .ok token ∧
      token.Valid = true ∧
      token.Claims.get? "expiresAt" = some (.num 15000) ∧
      token.Claims.get? "exp" = none ∧
      ∀ (r r1 : Request) (c : Cookie),
        r.Cookie "jwtToken" = .ok c → c.Value = t →
        getUsername S.lib r = (.ok user.Name.toValidUTF8, r1) →
        Authorized { S with now := now } r user.Name.toValidUTF8 r1 := by
  have hv := validateJWT_issued S user now hrt
  refine ⟨_, _, generateJWT_eq S user, hv, rfl, ?_, ?_, ?_⟩
  · simp [verifiedToken, decodedClaims, JObject.get?, List.filter]
  · simp [verifiedToken, decodedClaims, JObject.get?, List.filter]
  · intro r r1 c hc hct hu
    exact ⟨c, _, hc, by rw [hct]; exact hv, rfl, hu, decodedClaims_username user⟩

/-- Witness for C4: alice's token is accepted long after second 15000. -/
theorem generateJWT_token_never_expires_witness :
    (15000 : Int) ≤ 1900000000 ∧
    ∃ t token,
      generateJWT Sample.sys Sample.alice = .ok t ∧
      validateJWT { Sample.sys with now := 1900000000 } t = .ok token ∧
      token.Valid = true ∧
      token.Claims.get? "expiresAt" = some (.num 15000) ∧
      token.Claims.get? "exp" = none ∧
      ∀ (r r1 : Request) (c : Cookie),
        r.Cookie "jwtToken" = .ok c → c.Value = t →
        getUsername Sample.sys.lib r = (.ok "alice", r1) →
        Authorized { Sample.sys with now := 1900000000 } r "alice" r1 :=
  ⟨by decide, generateJWT_token_never_expires Sample.sys Sample.alice 1900000000 Sample.roundTrips⟩

/-- C8 (amended): `generateJWT` does not look at the secret before signing:
when `JWT_SECRET` is unset or empty it returns, without error, the token
signed under the empty key. -/
theorem generateJWT_empty_secret (S : Sys) (user : User)
    (h : S.environ.lookup "JWT_SECRET" = none ∨ S.environ.lookup "JWT_SECRET" = some "") :
    generateJWT S user =
      .ok (issuedSigningString S.lib user ++ "." ++
        S.lib.encodeOctets (S.lib.hmac "HS256" "" (issuedSigningString S.lib user))) := by
  have hs : Getenv S.environ "JWT_SECRET" = "" := by
    rcases h with h | h <;> simp [Getenv, h]
  rw [generateJWT_eq, hs]
  rfl

/-- Witness for C8: the server started without `JWT_SECRET`. -/
theorem generateJWT_empty_secret_witness :
    Sample.sysNoSecret.environ.lookup "JWT_SECRET" = none ∧
    generateJWT Sample.sysNoSecret Sample.alice =
      .ok (issuedSigningString Sample.lib Sample.alice ++ "." ++
        Sample.lib.encodeOctets
          (Sample.lib.hmac "HS256" "" (issuedSigningString Sample.lib Sample.alice))) :=
  ⟨rfl, generateJWT_empty_secret Sample.sysNoSecret Sample.alice (Or.inl rfl)⟩

/-- Counterexample to C8 as stated: without `JWT_SECRET` the call for alice
returns a token and no error. -/
theorem generateJWT_empty_secret_counterexample :
    Getenv Sample.sysNoSecret.environ "JWT_SECRET" = "" ∧
    generateJWT Sample.sysNoSecret Sample.alice = .ok Sample.tokenAliceEmptyKey ∧
    ¬ ∃ e, generateJWT Sample.sysNoSecret Sample.alice = .error e := by
  refine ⟨rfl, rfl, ?_⟩
  rintro ⟨e, he⟩
  have h : generateJWT Sample.sysNoSecret Sample.alice = .ok Sample.tokenAliceEmptyKey := rfl
  rw [h] at he
  cases he

theorem GetSigningMethod_not_hmac (alg : String) (m : SigningMethod)
    (h : GetSigningMethod alg = some m) (hn : alg ∉ hmacAlgs) : ∀ a, m ≠ .HMAC a := by
  intro a ha
  subst ha
  unfold GetSigningMethod at h
  simp only [hmacAlgs] at hn
  simp only [hn, if_false] at h
  split_ifs at h <;> simp at h

theorem ParseUnverified_method (L : Lib) (t : String) (token : Token) (p0 p1 p2 : String)
    (alg : String) (h : ParseUnverified L t = .ok (token, p0, p1, p2))
    (halg : headerAlg L t = some alg) : GetSigningMethod alg = some token.Method := by
  unfold ParseUnverified at h
  unfold headerAlg at halg
  split at h
  · rename_i q0 q1 q2 hs
    rw [hs] at halg
    simp only at halg
    cases hd : L.decodeSegment q0 with
    | none => simp [hd] at halg
    | some hb =>
      cases hj : L.jsonParse hb with
      | none => simp [hd, hj] at halg
      | some hjv =>
        cases hm : decodeMap [] hjv with
        | error e => simp [hd, hj, hm] at halg
        | ok header =>
          simp only [hd, hj, hm] at halg
          simp only [hd, hj, hm, orErr, bind, Except.bind] at h
          cases hd1 : L.decodeSegment q1 with
          | none => simp [hd1] at h
          | some cb =>
            cases hj1 : L.jsonParse cb with
            | none => simp [hd1, hj1] at h
            | some cj =>
              cases hm1 : decodeMap [] cj with
              | error e => simp [hd1, hj1, hm1] at h
              | ok claims =>
                simp only [hd1, hj1, hm1] at h
                split at halg
                · rename_i a hget
                  simp only [Option.some.injEq] at halg
                  subst halg
                  simp only [hget] at h
                  cases hg : GetSigningMethod a with
                  | none => simp [hg] at h
                  | some m =>
                    simp [hg, pure, Except.pure] at h
                    rw [← h.1]
                · cases halg
  · cases h

theorem validateJWT_error_of_non_hmac (S : Sys) (t : String) (alg : String)
    (halg : headerAlg S.lib t = some alg) (hn : alg ∉ hmacAlgs) :
    ∃ e, validateJWT S t = .error e := by
  unfold validateJWT Parse
  cases hp : ParseUnverified S.lib t with
  | error e => exact ⟨e, rfl⟩
  | ok res =>
    obtain ⟨token, p0, p1, p2⟩ := res
    have hm := ParseUnverified_method S.lib t token p0 p1 p2 alg hp halg
    have hnot := GetSigningMethod_not_hmac alg token.Method hm hn
    cases hd : S.lib.decodeOctets p2 with
    | none =>
      exact ⟨"token is malformed: could not base64 decode signature",
        by simp [bind, Except.bind, orErr, hd]⟩
    | some sig =>
      cases hmeth : token.Method with
      | HMAC a => exact absurd hmeth (hnot a)
      | _ =>
        exact ⟨"Unexpected signing method: " ++ formatAlg (token.Header.get? "alg"),
          by simp [bind, Except.bind, orErr, hd, hmeth]⟩

/-- C9: a token whose header names an algorithm outside the HMAC family
(`none`, the RSA, RSA-PSS, ECDSA and EdDSA methods, or an unregistered name)
is rejected by `validateJWT` with an error, whatever its claims, its
signature, the secret and the clock; a request carrying it is denied. -/
theorem validateJWT_rejects_non_hmac (S : Sys) (t : String) (alg : String)
    (halg : headerAlg S.lib t = some alg) (hn : alg ∉ hmacAlgs) :
    (∃ e, validateJWT S t = .error e) ∧
    ∀ (r : Request) (c : Cookie), r.Cookie "jwtToken" = .ok c → c.Value = t → Denied S r := by
  obtain ⟨e, he⟩ := validateJWT_error_of_non_hmac S t alg halg hn
  refine ⟨⟨e, he⟩, ?_⟩
  intro r c hc hct
  apply denied_of_not_authorized
  rintro ⟨u, r1, c2, token, hc2, hv, _⟩
  rw [hc] at hc2
  cases hc2
  rw [hct, he] at hv
  cases hv

/-- Witness for C9: the unsigned token with `alg` set to `none`. -/
theorem validateJWT_rejects_non_hmac_witness :
    headerAlg Sample.sys.lib Sample.tokenNone = some "none" ∧ "none" ∉ hmacAlgs ∧
    (∃ e, validateJWT Sample.sys Sample.tokenNone = .error e) ∧
    ∀ (r : Request) (c : Cookie), r.Cookie "jwtToken" = .ok c → c.Value = Sample.tokenNone →
      Denied Sample.sys r :=
  ⟨rfl, by decide, validateJWT_rejects_non_hmac Sample.sys Sample.tokenNone "none" rfl (by decide)⟩

/-! ### Identity binding -/

theorem findField_username (key : String)
    (h : findField ["name", "username", "value", "currency"] key = some "username") :
    foldName key = foldName "username" := by
  unfold findField at h
  split at h
  · rename_i t ht
    have := List.find?_some ht
    simp only [Option.some.injEq] at h
    subst h
    simp only [beq_iff_eq] at this
    rw [← this]
  · have := List.find?_some h
    simp only [beq_iff_eq] at this
    exact this.symm

theorem setFieldCTR_username (req req2 : CreateTransactionRequest) (kv : String × JValue)
    (h : setFieldCTR req kv = .ok req2) (hk : foldName kv.1 ≠ foldName "username") :
    req2.Username = req.Username := by
  unfold setFieldCTR at h
  split at h
  · cases hd : decodeString "name" req.Name kv.2 with
    | error e => simp [hd, bind, Except.bind] at h
    | ok v =>
      simp [hd, bind, Except.bind, pure, Except.pure] at h
      rw [← h]
  · rename_i hf
    exact absurd (findField_username kv.1 hf) hk
  · cases hd : decodeInt "value" req.Value kv.2 with
    | error e => simp [hd, bind, Except.bind] at h
    | ok v =>
      simp [hd, bind, Except.bind, pure, Except.pure] at h
      rw [← h]
  · cases hd : decodeString "currency" req.Currency kv.2 with
    | error e => simp [hd, bind, Except.bind] at h
    | ok v =>
      simp [hd, bind, Except.bind, pure, Except.pure] at h
      rw [← h]
  · simp [pure, Except.pure] at h
    rw [← h]

theorem foldlM_setFieldCTR_username (kvs : List (String × JValue))
    (req req2 : CreateTransactionRequest)
    (h : kvs.foldlM setFieldCTR req = .ok req2)
    (hk : ∀ kv ∈ kvs, foldName kv.1 ≠ foldName "username") :
    req2.Username = req.Username := by
  induction kvs generalizing req with
  | nil =>
    simp [List.foldlM, pure, Except.pure] at h
    rw [← h]
  | cons kv rest ih =>
    rw [List.foldlM_cons] at h
    cases hs : setFieldCTR req kv with
    | error e => simp [hs, bind, Except.bind] at h
    | ok mid =>
      simp only [hs, bind, Except.bind] at h
      have h1 := ih mid h (fun x hx => hk x (List.mem_cons_of_mem _ hx))
      have h2 := setFieldCTR_username req mid kv hs (hk kv (List.mem_cons_self _ _))
      rw [h1, h2]

/-- An object none of whose keys matches `username` under case folding
leaves the asserted username empty, if it decodes at all. -/
theorem getUsername_without_field (L : Lib) (r : Request) (kvs : List (String × JValue))
    (u : String) (r1 : Request)
    (hp : L.jsonParse r.Body.unread = some (.obj kvs))
    (hk : ∀ kv ∈ kvs, foldName kv.1 ≠ foldName "username")
    (h : getUsername L r = (.ok u, r1)) : u = "" := by
  obtain ⟨_, req, hm, hu, _⟩ := (getUsername_ok_iff L r u r1).mp h
  simp only [unmarshalCTR, hp, decodeCTR] at hm
  have := foldlM_setFieldCTR_username kvs {} req hm hk
  rw [← hu, this]

/-- C6 (amended): for a request whose `jwtToken` cookie holds a token that
`validateJWT` accepts, the gate denies the request when the body is empty
or is not parseable JSON; when the body is a JSON object with no key that
matches `username` (keys compared under case folding, as the decoder does)
the asserted username is the empty string and the request is denied provided
the token's `username` claim is not the empty string; and with the claim
`alice`, a body asserting `alice` runs the handler while a body asserting
`bob` is denied. -/
theorem withJWTAuth_binding_fails_closed (S : Sys) (r : Request) (c : Cookie) (token : Token)
    (hc : r.Cookie "jwtToken" = .ok c) (hv : validateJWT S c.Value = .ok token) :
    (r.Body.unread = "" → Denied S r) ∧
    (S.lib.jsonParse r.Body.unread = none → Denied S r) ∧
    (∀ kvs, S.lib.jsonParse r.Body.unread = some (.obj kvs) →
      (∀ kv ∈ kvs, foldName kv.1 ≠ foldName "username") →
      token.Claims.get? "username" ≠ some (.str "") → Denied S r) ∧
    (token.Claims.get? "username" = some (.str "alice") →
      (∀ r1, getUsername S.lib r = (.ok "alice", r1) →
        ∀ (σ : Type) (h : Handle σ) (st : Storage σ) (w : ResponseWriter) (ps : Params)
          (world : σ), withJWTAuth S h st w r ps world = h w r1 ps world) ∧
      (∀ r1, getUsername S.lib r = (.ok "bob", r1) → Denied S r)) := by
  have hvalid : token.Valid = true := by
    simp only [validateJWT, Parse, bind, Except.bind] at hv
    split at hv
    · cases hv
    · split at hv
      · cases hv
      · split at hv
        · cases hv
        · split at hv
          · cases hv
          · split at hv
            · cases hv
            · simp only [pure, Except.pure, Except.ok.injEq] at hv
              rw [← hv]
  have key : ∀ (P : String → Prop), (∀ u r1, getUsername S.lib r = (.ok u, r1) → P u) →
      (∀ u, P u → token.Claims.get? "username" ≠ some (.str u)) → Denied S r := by
    intro P hP hne
    apply denied_of_not_authorized
    rintro ⟨u, r1, c2, token2, hc2, hv2, _, hu, hcl⟩
    rw [hc] at hc2
    cases hc2
    rw [hv] at hv2
    cases hv2
    exact hne u (hP u r1 hu) hcl
  have hnone : S.lib.jsonParse r.Body.unread = none → Denied S r := by
    intro hp
    obtain ⟨e, r2, he⟩ := getUsername_error_of_parse_none S.lib r hp
    refine key (fun _ => False) ?_ (fun _ hf => hf.elim)
    intro u r1 hu
    rw [he] at hu
    cases hu
  refine ⟨?_, hnone, ?_, ?_⟩
  · intro hempty
    apply hnone
    rw [hempty]
    exact S.lib.jsonParse_empty
  · intro kvs hp hk hclaim
    refine key (fun u => u = "") ?_ ?_
    · intro u r1 hu
      exact getUsername_without_field S.lib r kvs u r1 hp hk hu
    · intro u hu
      rw [hu]
      exact hclaim
  · intro hclaim
    constructor
    · intro r1 hu σ h st w ps world
      exact withJWTAuth_of_authorized S h st w r ps world "alice" r1
        ⟨c, token, hc, hv, hvalid, hu, hclaim⟩
    · intro r1 hu
      refine key (fun u => u = "bob") ?_ ?_
      · intro u r2 hu2
        rw [hu] at hu2
        simp only [Prod.mk.injEq, Except.ok.injEq] at hu2
        exact hu2.1.symm
      · intro u hu2
        rw [hu2, hclaim]
        simp

/-- Witness for C6: under alice's token the empty object is denied. -/
theorem withJWTAuth_binding_fails_closed_witness :
    (Sample.request Sample.tokenAlice Sample.bodyEmptyObject).Cookie "jwtToken" =
      .ok { Name := "jwtToken", Value := Sample.tokenAlice } ∧
    validateJWT Sample.sys Sample.tokenAlice =
      .ok (verifiedToken Sample.lib Sample.secret Sample.alice) ∧
    Denied Sample.sys (Sample.request Sample.tokenAlice Sample.bodyEmptyObject) :=
  ⟨rfl, rfl,
    (withJWTAuth_binding_fails_closed Sample.sys
      (Sample.request Sample.tokenAlice Sample.bodyEmptyObject)
      { Name := "jwtToken", Value := Sample.tokenAlice }
      (verifiedToken Sample.lib Sample.secret Sample.alice) rfl rfl).2.2.1 [] rfl
      (by simp)
      (fun h => absurd (JValue.str.inj (Option.some.inj
        ((decodedClaims_username Sample.alice).symm.trans h))) (by decide))⟩

/-- Counterexample to C6 as stated: the token with an empty `username`
claim, signed under the server's secret, is accepted by `validateJWT`; the
body is the empty JSON object, which has no `username` field; the gate runs
the handler. -/
theorem withJWTAuth_binding_counterexample :
    (Sample.request Sample.tokenAnon Sample.bodyEmptyObject).Cookie "jwtToken" =
      .ok { Name := "jwtToken", Value := Sample.tokenAnon } ∧
    validateJWT Sample.sys Sample.tokenAnon =
      .ok (verifiedToken Sample.lib Sample.secret Sample.anon) ∧
    Sample.lib.jsonParse Sample.bodyEmptyObject = some (.obj []) ∧
    invocations Sample.sys (Sample.request Sample.tokenAnon Sample.bodyEmptyObject) = 1 ∧
    ¬ Denied Sample.sys (Sample.request Sample.tokenAnon Sample.bodyEmptyObject) :=
  ⟨rfl, rfl, rfl, by decide,
    fun hd => not_authorized_of_denied _ _ hd ((invocations_eq_one_iff _ _).mp (by decide))⟩

/-- The decoder matches keys under case folding: a body whose only key is
`USERNAME` asserts alice and passes the gate under alice's token. -/
theorem withJWTAuth_folded_key :
    getUsername Sample.lib (Sample.request Sample.tokenAlice Sample.bodyUpper) =
      (.ok "alice", Sample.request Sample.tokenAlice Sample.bodyUpper) ∧
    invocations Sample.sys (Sample.request Sample.tokenAlice Sample.bodyUpper) = 1 :=
  ⟨rfl, by decide⟩

/-! ### The gated routes -/

theorem writtenTransactions_WriteJSON (w : ResponseWriter) (status : Nat) (v : Payload) :
    writtenTransactions (WriteJSON w status v) = writtenTransactions w ++ v.written := by
  unfold writtenTransactions WriteJSON WriteHeader
  cases w.status <;> simp [List.foldr_append] <;>
    induction w.body with
    | nil => simp
    | cons p ps ih => simp [ih]

/-- On `GET /transaction` and `GET /transaction/:category` every transaction
the gated route writes is owned by the token's user, the store returning
only records of the user it is asked for. -/
theorem route_filtered_owned {σ : Type} (S : Sys) (s : APIServer σ) (w : ResponseWriter)
    (r : Request) (ps : Params) (world : σ) (u : String) (r1 : Request)
    (ha : Authorized S r u r1)
    (h1 : ∀ n x ts y, s.Storage.GetTransactions n x = (.ok ts, y) → ∀ t ∈ ts, t.Username = n)
    (h2 : ∀ n c x ts y, s.Storage.GetTransactionsByCategory n c x = (.ok ts, y) →
      ∀ t ∈ ts, t.Username = n)
    (route : GatedRoute) (hroute : route ≠ .transactionCategoryID) :
    ∀ t ∈ writtenTransactions (s.route S route w r ps world).w,
      t ∈ writtenTransactions w ∨ t.Username = u := by
  have hu : getUsername S.lib r = (.ok u, r1) := by
    obtain ⟨_, _, _, _, _, hu, _⟩ := ha
    exact hu
  have hu2 := getUsername_again S.lib r u r1 hu
  cases route with
  | transactionCategoryID => exact absurd rfl hroute
  | transaction =>
    simp only [APIServer.route]
    rw [withJWTAuth_of_authorized S _ _ w r ps world u r1 ha]
    simp only [makeHTTPHandler, handleGetTransaction, hu2]
    rcases hg : s.Storage.GetTransactions u world with ⟨res, y⟩
    cases res with
    | error e =>
      simp only [writtenTransactions_WriteJSON, Payload.written, List.append_nil]
      exact fun t ht => Or.inl ht
    | ok ts =>
      simp only [writtenTransactions_WriteJSON, Payload.written, List.mem_append]
      intro t ht
      exact ht.imp id (h1 u world ts y hg t)
  | transactionCategory =>
    simp only [APIServer.route]
    rw [withJWTAuth_of_authorized S _ _ w r ps world u r1 ha]
    simp only [makeHTTPHandler, handleGetTransactionCategory, hu2]
    rcases hg : s.Storage.GetTransactionsByCategory u (ByName ps "category") world with ⟨res, y⟩
    cases res with
    | error e =>
      simp only [writtenTransactions_WriteJSON, Payload.written, List.append_nil]
      exact fun t ht => Or.inl ht
    | ok ts =>
      simp only [writtenTransactions_WriteJSON, Payload.written, List.mem_append]
      intro t ht
      exact ht.imp id (h2 u _ world ts y hg t)

/-- C2 (code): on `GET /transaction/:category/:id` a request that passed
the gate for user `u` is answered with the record the store holds under the
requested id, whoever owns it; no step compares its owner with `u`. -/
theorem handleGetTransactionID_ignores_owner {σ : Type} (S : Sys) (s : APIServer σ)
    (w : ResponseWriter) (r : Request) (ps : Params) (world : σ) (u : String) (r1 : Request)
    (id : Int) (t : Transaction) (world1 : σ)
    (ha : Authorized S r u r1)
    (hid : Atoi (ByName ps "id") = .ok id)
    (hst : s.Storage.GetTransactionID id world = (.ok t, world1)) :
    s.route S .transactionCategoryID w r ps world =
      { w := WriteJSON w StatusOK (.transaction t), r := r1, world := world1 } := by
  simp only [APIServer.route]
  rw [withJWTAuth_of_authorized S _ _ w r ps world u r1 ha]
  simp [makeHTTPHandler, handleGetTransactionID, hid, hst]

theorem Sample.authorized_alice :
    Authorized Sample.sys (Sample.request Sample.tokenAlice Sample.bodyAlice) "alice"
      (Sample.request Sample.tokenAlice Sample.bodyAlice) :=
  ⟨{ Name := "jwtToken", Value := Sample.tokenAlice },
    verifiedToken Sample.lib Sample.secret Sample.alice, rfl, rfl, rfl, rfl, rfl⟩

/-- Witness for C2: alice, authenticated and asserting alice, asks for id 7
and receives bob's record. -/
theorem handleGetTransactionID_ignores_owner_witness :
    Authorized Sample.sys (Sample.request Sample.tokenAlice Sample.bodyAlice) "alice"
      (Sample.request Sample.tokenAlice Sample.bodyAlice) ∧
    Sample.bobsTransaction.Username ≠ "alice" ∧
    (Sample.server.route Sample.sys .transactionCategoryID {}
        (Sample.request Sample.tokenAlice Sample.bodyAlice) [("category", "home"), ("id", "7")]
        []).w.body = [.transaction Sample.bobsTransaction] :=
  ⟨Sample.authorized_alice, by decide,
    congrArg (fun x => x.w.body)
      (handleGetTransactionID_ignores_owner Sample.sys Sample.server {}
        (Sample.request Sample.tokenAlice Sample.bodyAlice) [("category", "home"), ("id", "7")]
        [] "alice" (Sample.request Sample.tokenAlice Sample.bodyAlice) 7 Sample.bobsTransaction
        ["GetTransactionID"] Sample.authorized_alice rfl rfl)⟩

/-- C3 (code): `handleLogin` checks the stored digest against itself and
never looks at the password of the request: a login with the right password
for a stored user whose digest does not verify as its own password is
refused with `not authenticated`, nothing is written and no cookie is set. -/
theorem handleLogin_rejects_right_password {σ : Type} (S : Sys) (s : APIServer σ)
    (w : ResponseWriter) (r : Request) (world : σ) (userReq : CreateUserRequest) (rest : Body)
    (user : User) (world1 : σ)
    (hreq : decodeBodyCUR S.lib r.Body {} = (.ok userReq, rest))
    (hget : s.Storage.GetUser userReq.Name world = (.ok user, world1))
    (_hright : user.validPassword S.lib userReq.Password = true)
    (hself : user.validPassword S.lib user.PasswordEncrypted = false) :
    handleLogin S s w r world =
      (some "not authenticated", { w := w, r := { r with Body := rest }, world := world1 }) := by
  simp [handleLogin, hreq, hget, hself]

/-- The outcome of `handleLogin` does not depend on the password sent: two
requests that decode to the same user name and leave the same stream behind
are answered alike. -/
theorem handleLogin_ignores_password {σ : Type} (S : Sys) (s : APIServer σ)
    (w : ResponseWriter) (ra rb : Request) (world : σ) (reqa reqb : CreateUserRequest)
    (rest : Body)
    (ha : decodeBodyCUR S.lib ra.Body {} = (.ok reqa, rest))
    (hb : decodeBodyCUR S.lib rb.Body {} = (.ok reqb, rest))
    (hname : reqa.Name = reqb.Name) (hcookies : ra.Cookies = rb.Cookies) :
    handleLogin S s w ra world = handleLogin S s w rb world := by
  simp only [handleLogin, ha, hb, hname, hcookies]

/-- Witness for C3: alice logs in with her password `secret1`. -/
theorem handleLogin_rejects_right_password_witness :
    Sample.alice.validPassword Sample.lib "secret1" = true ∧
    Sample.alice.validPassword Sample.lib Sample.alice.PasswordEncrypted = false ∧
    (handleLogin Sample.sys Sample.server {}
        { Cookies := [], Body := { unread := Sample.bodyLogin } } []).1 =
      some "not authenticated" :=
  ⟨by decide, by decide,
    congrArg (fun x => x.1)
      (handleLogin_rejects_right_password Sample.sys Sample.server {}
        { Cookies := [], Body := { unread := Sample.bodyLogin } } []
        { Name := "alice", Password := "secret1" } { unread := "" } Sample.alice ["GetUser alice"]
        rfl rfl (by decide) (by decide))⟩

end GoKeeper
